import Mathlib

/-!
Verification of the Accessible Math Reader core library
(`accessible_math_reader`): a shallow embedding in Lean 4 of the semantic
tree model (`core/semantic.py`), the LaTeX/MathML parser
(`core/parser.py`), the speech renderer (`speech/rules.py`) and the two
Braille converters (`braille/nemeth.py`, `braille/ueb.py`), together with
theorems settling the specification claims C1 to C10.

Modelling conventions:
* Python strings are modelled as `String`/`List Char`; the parser works on
  `List Char` with absolute positions, exactly like the Python index-based
  scan.
* Python `uuid.uuid4()` node ids: nodes are built with the placeholder id
  `pendingId`, and the draw of fresh random identifiers is modelled by the
  decoration pass `assign_ids` taking an arbitrary identifier supply
  `u : Nat → String`.  Quantifying over all supplies covers every possible
  sequence of random uuids.
* The recursive-descent LaTeX parser terminates because every recursive
  call processes a strictly smaller region; this is made structural with a
  fuel parameter.  `parse_latex` passes `(length + 2)²` fuel, which is
  never exhausted (the recursion depth is linear in the input length).
-/

/-- Node types of the semantic tree, from `NodeType` in `core/semantic.py`. -/
inductive NodeType where
  | ROOT | GROUP
  | NUMBER | IDENTIFIER
  | FRACTION | SUPERSCRIPT | SUBSCRIPT | SQRT | NROOT
  | OPERATOR | RELATION
  | FUNCTION
  | SUM | PRODUCT | INTEGRAL | LIMIT
  | MATRIX | MATRIX_ROW
  | TEXT | SPACE
  deriving DecidableEq, Repr

/-- `NodeType.name` of the Python `Enum` member (used by `to_dict`). -/
def NodeType.pyName : NodeType → String
  | .ROOT => "ROOT"
  | .GROUP => "GROUP"
  | .NUMBER => "NUMBER"
  | .IDENTIFIER => "IDENTIFIER"
  | .FRACTION => "FRACTION"
  | .SUPERSCRIPT => "SUPERSCRIPT"
  | .SUBSCRIPT => "SUBSCRIPT"
  | .SQRT => "SQRT"
  | .NROOT => "NROOT"
  | .OPERATOR => "OPERATOR"
  | .RELATION => "RELATION"
  | .FUNCTION => "FUNCTION"
  | .SUM => "SUM"
  | .PRODUCT => "PRODUCT"
  | .INTEGRAL => "INTEGRAL"
  | .LIMIT => "LIMIT"
  | .MATRIX => "MATRIX"
  | .MATRIX_ROW => "MATRIX_ROW"
  | .TEXT => "TEXT"
  | .SPACE => "SPACE"

/-- `NodeType[name]` lookup of the Python `Enum` (used by `from_dict`);
`none` models the `KeyError` raised on an unknown name. -/
def NodeType.ofPyName (s : String) : Option NodeType :=
  [NodeType.ROOT, .GROUP, .NUMBER, .IDENTIFIER, .FRACTION, .SUPERSCRIPT,
   .SUBSCRIPT, .SQRT, .NROOT, .OPERATOR, .RELATION, .FUNCTION, .SUM,
   .PRODUCT, .INTEGRAL, .LIMIT, .MATRIX, .MATRIX_ROW, .TEXT,
   .SPACE].find? (fun t => t.pyName = s)

/-- A metadata value: the parser stores strings (`"role"`, `"source"`) and
the boolean flag `unknown_command`. -/
inductive MetaVal where
  | s (v : String)
  | b (v : Bool)
  deriving DecidableEq, Repr

/-- The placeholder for a freshly generated `uuid` node id; the actual draw
of random identifiers is modelled by `assign_ids` below. -/
def pendingId : String := ""

/-- `SemanticNode` from `core/semantic.py`.  The `parent` back-reference is
not stored: a node's identity inside a fixed tree is its path from the
root, and parent navigation is modelled on paths. -/
inductive SemanticNode where
  | mk (nodeType : NodeType) (content : String)
       (children : List SemanticNode)
       (metadata : List (String × MetaVal))
       (nodeId : String)
       (accessibility : List (String × String))

def SemanticNode.nodeType : SemanticNode → NodeType
  | .mk t _ _ _ _ _ => t

def SemanticNode.content : SemanticNode → String
  | .mk _ c _ _ _ _ => c

def SemanticNode.children : SemanticNode → List SemanticNode
  | .mk _ _ ch _ _ _ => ch

def SemanticNode.metadata : SemanticNode → List (String × MetaVal)
  | .mk _ _ _ m _ _ => m

def SemanticNode.nodeId : SemanticNode → String
  | .mk _ _ _ _ i _ => i

def SemanticNode.accessibility : SemanticNode → List (String × String)
  | .mk _ _ _ _ _ a => a

/-- `SemanticNode.add_child`: append a child (the Python method also sets
the child's parent pointer, which is implicit here). -/
def add_child (parent child : SemanticNode) : SemanticNode :=
  match parent with
  | .mk t c ch m i a => .mk t c (ch ++ [child]) m i a

mutual
/-- `SemanticNode.get_navigable_children`: children with `GROUP`/`ROOT`
nodes transparently flattened to their own navigable children. -/
def get_navigable_children : SemanticNode → List SemanticNode
  | .mk _ _ ch _ _ _ => navigable_of_list ch

def navigable_of_list : List SemanticNode → List SemanticNode
  | [] => []
  | c :: cs =>
      (if c.nodeType = .GROUP ∨ c.nodeType = .ROOT then
        get_navigable_children c
      else [c]) ++ navigable_of_list cs
end

mutual
/-- Relative paths (child-index sequences) of the navigable children,
mirroring `get_navigable_children`.  A Python node object inside a fixed
immutable tree is identified with its path from the root, so this is the
path-level counterpart of the node-level query. -/
def navigable_paths : SemanticNode → List (List Nat)
  | .mk _ _ ch _ _ _ => navigable_paths_of_list 0 ch

def navigable_paths_of_list : Nat → List SemanticNode → List (List Nat)
  | _, [] => []
  | i, c :: cs =>
      (if c.nodeType = .GROUP ∨ c.nodeType = .ROOT then
        (navigable_paths c).map (fun p => i :: p)
      else [[i]]) ++ navigable_paths_of_list (i + 1) cs
end

/-- Subtree at a child-index path. -/
def node_at (n : SemanticNode) : List Nat → Option SemanticNode
  | [] => some n
  | i :: rest =>
      match n.children.get? i with
      | none => none
      | some c => node_at c rest

/-- `MathNavigator` state: the fixed tree, the path of the current node
(`_current`, whose object identity is its path), the `_position_stack`,
and `_sibling_index`. -/
structure NavState where
  tree : SemanticNode
  path : List Nat
  stack : List Nat
  sib : Nat

/-- `MathNavigator.__init__`: cursor at the root, empty stack, index 0. -/
def nav_init (root : SemanticNode) : NavState :=
  ⟨root, [], [], 0⟩

/-- `MathNavigator.enter`: move to the first navigable child (returns
`False` and leaves the state unchanged if there is none). -/
def nav_enter (s : NavState) : Bool × NavState :=
  match node_at s.tree s.path with
  | none => (false, s)  -- unreachable for states produced by the API
  | some cur =>
    match navigable_paths cur with
    | [] => (false, s)
    | p :: _ => (true, ⟨s.tree, s.path ++ p, s.sib :: s.stack, 0⟩)

/-- `MathNavigator.exit`: move to the parent, restoring the sibling index
from the stack; fails at the root or on an empty stack. -/
def nav_exit (s : NavState) : Bool × NavState :=
  if s.path = [] then (false, s)
  else
    match s.stack with
    | [] => (false, s)
    | top :: rest => (true, ⟨s.tree, s.path.dropLast, rest, top⟩)

/-- `MathNavigator.next`: move to the next navigable sibling, recomputing
the sibling list from the current node's (real) parent. -/
def nav_next (s : NavState) : Bool × NavState :=
  if s.path = [] then (false, s)  -- current.parent is None
  else
    let parentPath := s.path.dropLast
    match node_at s.tree parentPath with
    | none => (false, s)  -- unreachable for states produced by the API
    | some par =>
      let sibs := navigable_paths par
      if s.sib ≥ sibs.length - 1 then (false, s)
      else (true, ⟨s.tree, parentPath ++ sibs.getD (s.sib + 1) [],
                   s.stack, s.sib + 1⟩)

/-- `MathNavigator.previous`: move to the previous navigable sibling. -/
def nav_previous (s : NavState) : Bool × NavState :=
  if s.path = [] ∨ s.sib = 0 then (false, s)
  else
    let parentPath := s.path.dropLast
    match node_at s.tree parentPath with
    | none => (false, s)  -- unreachable for states produced by the API
    | some par =>
      let sibs := navigable_paths par
      (true, ⟨s.tree, parentPath ++ sibs.getD (s.sib - 1) [],
              s.stack, s.sib - 1⟩)

/-- The tree of spec Example D: `Fraction[Group[Identifier "a"],
Group[Identifier "b"]]`, built programmatically as in the spec. -/
def identA : SemanticNode := .mk .IDENTIFIER "a" [] [] pendingId []

def identB : SemanticNode := .mk .IDENTIFIER "b" [] [] pendingId []

def groupA : SemanticNode := .mk .GROUP "" [identA] [] pendingId []

def groupB : SemanticNode := .mk .GROUP "" [identB] [] pendingId []

def fracAB : SemanticNode := .mk .FRACTION "" [groupA, groupB] [] pendingId []

/-! ## Speech rendering (`speech/rules.py`) -/

/-- `VerbosityLevel` / `SpeechStyle` (the two Python enums are in
value-level bijection; `SpeechRenderer._get_verbosity` converts). -/
inductive SpeechStyle where
  | verbose | concise | superbrief
  deriving DecidableEq, Repr

/-- One row of `SpeechRuleSet.PHRASES`: the phrase at each verbosity. -/
structure PhraseRow where
  verbose : String
  concise : String
  superbrief : String
  deriving DecidableEq, Repr

def PhraseRow.select : PhraseRow → SpeechStyle → String
  | r, .verbose => r.verbose
  | r, .concise => r.concise
  | r, .superbrief => r.superbrief

/-- `SpeechRuleSet.PHRASES`. -/
def PHRASES : List (String × PhraseRow) :=
  [("fraction_start", ⟨"start fraction", "", "frac"⟩),
   ("fraction_over", ⟨"over", "over", ""⟩),
   ("fraction_end", ⟨"end fraction", "", ""⟩),
   ("superscript", ⟨"to the power of", "to the", "exp"⟩),
   ("subscript", ⟨"subscript", "sub", "sub"⟩),
   ("sqrt", ⟨"square root of", "square root of", "sqrt"⟩),
   ("sqrt_end", ⟨"end root", "", ""⟩),
   ("nroot", ⟨"root of", "root", "root"⟩),
   ("sum", ⟨"summation of", "sum of", "sum"⟩),
   ("integral", ⟨"integral of", "integral of", "int"⟩)]

/-- Lookup in an association table with string keys (`dict.get`). -/
def tblGet (tbl : List (String × String)) (k : String) : Option String :=
  (tbl.find? (fun kv => kv.1 = k)).map (fun kv => kv.2)

/-- `SpeechRuleSet.get_phrase`: missing keys give `""`; rows are total so
the `VERBOSE` fallback of the Python code never fires. -/
def get_phrase (key : String) (v : SpeechStyle) : String :=
  match PHRASES.find? (fun kv => kv.1 = key) with
  | none => ""
  | some (_, row) => row.select v

/-- `SpeechRuleSet.OPERATOR_NAMES`. -/
def OPERATOR_NAMES : List (String × String) :=
  [("+", "plus"), ("-", "minus"), ("−", "minus"),
   ("×", "times"), ("·", "times"), ("÷", "divided by"),
   ("±", "plus or minus"), ("∓", "minus or plus"),
   ("(", "open paren"), (")", "close paren"),
   ("[", "open bracket"), ("]", "close bracket")]

/-- `SpeechRuleSet.RELATION_NAMES`. -/
def RELATION_NAMES : List (String × String) :=
  [("=", "equals"), ("<", "less than"), (">", "greater than"),
   ("≤", "less than or equal to"), ("≥", "greater than or equal to"),
   ("≠", "not equal to"), ("≈", "approximately equal to"),
   ("≡", "is identical to")]

/-- `SpeechRuleSet.NUMBER_NAMES`. -/
def NUMBER_NAMES : List (String × String) := [("∞", "infinity")]

/-- `SpeechRuleSet.IDENTIFIER_NAMES`. -/
def IDENTIFIER_NAMES : List (String × String) :=
  [("α", "alpha"), ("β", "beta"), ("γ", "gamma"), ("δ", "delta"),
   ("ε", "epsilon"), ("ζ", "zeta"), ("η", "eta"), ("θ", "theta"),
   ("ι", "iota"), ("κ", "kappa"), ("λ", "lambda"), ("μ", "mu"),
   ("ν", "nu"), ("ξ", "xi"), ("π", "pi"), ("ρ", "rho"),
   ("σ", "sigma"), ("τ", "tau"), ("υ", "upsilon"), ("φ", "phi"),
   ("χ", "chi"), ("ψ", "psi"), ("ω", "omega"),
   ("Α", "capital alpha"), ("Β", "capital beta"), ("Γ", "capital gamma"),
   ("Δ", "capital delta"), ("Θ", "capital theta"), ("Λ", "capital lambda"),
   ("Ξ", "capital xi"), ("Π", "capital pi"), ("Σ", "capital sigma"),
   ("Φ", "capital phi"), ("Ψ", "capital psi"), ("Ω", "capital omega"),
   ("∞", "infinity")]

/-- `SpeechRenderer._join_parts`: join with single spaces, dropping empty
fragments. -/
def join_parts (parts : List String) : String :=
  String.intercalate " " (parts.filter (fun p => p ≠ ""))

mutual
/-- `SpeechRenderer.render`: dispatch on the node type; node types without
a dedicated `_render_*` method fall to `_render_default`. -/
def speech_render (v : SpeechStyle) : SemanticNode → String
  | .mk t c ch _ _ _ =>
    match t with
    | .ROOT => join_parts (speech_render_list v ch)
    | .GROUP => join_parts (speech_render_list v ch)
    | .NUMBER => (tblGet NUMBER_NAMES c).getD c
    | .IDENTIFIER => (tblGet IDENTIFIER_NAMES c).getD c
    | .OPERATOR => (tblGet OPERATOR_NAMES c).getD c
    | .RELATION => (tblGet RELATION_NAMES c).getD c
    | .FUNCTION => c
    | .FRACTION =>
        join_parts
          ((let s := get_phrase "fraction_start" v
            if s ≠ "" then [s] else []) ++
           (match ch with
            | [] => []
            | x :: _ => [speech_render v x]) ++
           [get_phrase "fraction_over" v] ++
           (match ch with
            | _ :: y :: _ => [speech_render v y]
            | _ => []) ++
           (let e := get_phrase "fraction_end" v
            if e ≠ "" then [e] else []))
    | .SUPERSCRIPT =>
        join_parts
          ((match ch with
            | [] => []
            | x :: _ => [speech_render v x]) ++
           [get_phrase "superscript" v] ++
           (match ch with
            | _ :: y :: _ => [speech_render v y]
            | _ => []))
    | .SUBSCRIPT =>
        join_parts
          ((match ch with
            | [] => []
            | x :: _ => [speech_render v x]) ++
           [get_phrase "subscript" v] ++
           (match ch with
            | _ :: y :: _ => [speech_render v y]
            | _ => []))
    | .SQRT =>
        join_parts
          ([get_phrase "sqrt" v] ++
           (match ch with
            | [] => []
            | x :: _ => [speech_render v x]) ++
           (let e := get_phrase "sqrt_end" v
            if e ≠ "" then [e] else []))
    | .NROOT =>
        join_parts
          ((match ch with
            | [] => []
            | x :: _ => [speech_render v x]) ++
           [get_phrase "nroot" v] ++
           (match ch with
            | _ :: y :: _ => [speech_render v y]
            | _ => []))
    | .SUM => join_parts (get_phrase "sum" v :: speech_render_list v ch)
    | .INTEGRAL =>
        join_parts (get_phrase "integral" v :: speech_render_list v ch)
    | .TEXT => c
    | .PRODUCT | .LIMIT | .MATRIX | .MATRIX_ROW | .SPACE =>
        -- no dedicated method exists: `_render_default`
        if c ≠ "" then c else join_parts (speech_render_list v ch)

def speech_render_list (v : SpeechStyle) : List SemanticNode → List String
  | [] => []
  | x :: xs => speech_render v x :: speech_render_list v xs
end

/-! ## Nemeth Braille converter (`braille/nemeth.py`) -/

/-- Lookup in an association table keyed by single characters (the Python
tables are keyed by 1-character strings). -/
def chrGet (tbl : List (Char × String)) (c : Char) : Option String :=
  (tbl.find? (fun kv => kv.1 = c)).map (fun kv => kv.2)

/-- `NemethConverter.DIGITS`. -/
def NEMETH_DIGITS : List (Char × String) :=
  [('0', "⠴"), ('1', "⠂"), ('2', "⠆"), ('3', "⠒"), ('4', "⠲"),
   ('5', "⠢"), ('6', "⠖"), ('7', "⠶"), ('8', "⠦"), ('9', "⠔")]

/-- `NemethConverter.LETTERS` (also `UEBConverter.LETTERS`, which is the
same standard-Braille table). -/
def BRAILLE_LETTERS : List (Char × String) :=
  [('a', "⠁"), ('b', "⠃"), ('c', "⠉"), ('d', "⠙"), ('e', "⠑"),
   ('f', "⠋"), ('g', "⠛"), ('h', "⠓"), ('i', "⠊"), ('j', "⠚"),
   ('k', "⠅"), ('l', "⠇"), ('m', "⠍"), ('n', "⠝"), ('o', "⠕"),
   ('p', "⠏"), ('q', "⠟"), ('r', "⠗"), ('s', "⠎"), ('t', "⠞"),
   ('u', "⠥"), ('v', "⠧"), ('w', "⠺"), ('x', "⠭"), ('y', "⠽"),
   ('z', "⠵")]

/-- `NemethConverter.GREEK`. -/
def NEMETH_GREEK : List (String × String) :=
  [("α", "⠨⠁"), ("β", "⠨⠃"), ("γ", "⠨⠛"), ("δ", "⠨⠙"),
   ("ε", "⠨⠑"), ("ζ", "⠨⠵"), ("η", "⠨⠱"), ("θ", "⠨⠹"),
   ("ι", "⠨⠊"), ("κ", "⠨⠅"), ("λ", "⠨⠇"), ("μ", "⠨⠍"),
   ("ν", "⠨⠝"), ("ξ", "⠨⠭"), ("π", "⠨⠏"), ("ρ", "⠨⠗"),
   ("σ", "⠨⠎"), ("τ", "⠨⠞"), ("υ", "⠨⠥"), ("φ", "⠨⠋"),
   ("χ", "⠨⠯"), ("ψ", "⠨⠽"), ("ω", "⠨⠺"),
   ("Α", "⠠⠨⠁"), ("Β", "⠠⠨⠃"), ("Γ", "⠠⠨⠛"), ("Δ", "⠠⠨⠙"),
   ("Θ", "⠠⠨⠹"), ("Λ", "⠠⠨⠇"), ("Π", "⠠⠨⠏"), ("Σ", "⠠⠨⠎"),
   ("Φ", "⠠⠨⠋"), ("Ψ", "⠠⠨⠽"), ("Ω", "⠠⠨⠺")]

/-- `NemethConverter.OPERATORS`. -/
def NEMETH_OPERATORS : List (String × String) :=
  [("+", "⠬"), ("-", "⠤"), ("−", "⠤"), ("×", "⠡"), ("·", "⠡"),
   ("÷", "⠌"), ("±", "⠬⠤"), ("(", "⠷"), (")", "⠾"),
   ("[", "⠈⠷"), ("]", "⠈⠾")]

/-- `NemethConverter.RELATIONS`. -/
def NEMETH_RELATIONS : List (String × String) :=
  [("=", "⠀⠿⠀"), ("<", "⠀⠪⠀"), (">", "⠀⠻⠀"), ("≤", "⠀⠪⠿⠀"),
   ("≥", "⠀⠻⠿⠀"), ("≠", "⠀⠿⠈⠱⠀"), ("≈", "⠀⠈⠿⠀")]

/-- Greek capital letters appearing in this code base (Python
`str.isupper`/`str.lower` are Unicode-aware; this models them on the
ASCII range plus the Greek repertoire the parser and converters use). -/
def GREEK_CAPS : List (Char × Char) :=
  [('Α', 'α'), ('Β', 'β'), ('Γ', 'γ'), ('Δ', 'δ'), ('Θ', 'θ'),
   ('Λ', 'λ'), ('Ξ', 'ξ'), ('Π', 'π'), ('Σ', 'σ'), ('Φ', 'φ'),
   ('Ψ', 'ψ'), ('Ω', 'ω')]

/-- Python `str.lower` on one character (ASCII plus Greek capitals). -/
def pyCharLower (c : Char) : Char :=
  match (GREEK_CAPS.find? (fun kv => kv.1 = c)).map (fun kv => kv.2) with
  | some l => l
  | none => c.toLower

/-- Python single-character `str.isupper` (ASCII plus Greek capitals). -/
def pyIsUpper (c : Char) : Bool :=
  c.isUpper || (GREEK_CAPS.find? (fun kv => kv.1 = c)).isSome

/-- Python `str.lower` on a whole string. -/
def pyLower (s : String) : String := String.mk (s.data.map pyCharLower)

/-- `NemethConverter._render_text`: letter/digit transliteration of the
lowercased content; spaces map to the Braille space cell. -/
def nemeth_text (content : String) : String :=
  String.join ((pyLower content).data.map (fun c =>
    match chrGet BRAILLE_LETTERS c with
    | some cell => cell
    | none =>
      match chrGet NEMETH_DIGITS c with
      | some cell => cell
      | none => if c = ' ' then "⠀" else String.singleton c))

/-- `NemethConverter._render_number`: numeric indicator, then each digit
cell; `.` maps to the decimal-point cell; other characters pass through. -/
def nemeth_number (content : String) : String :=
  "⠼" ++ String.join (content.data.map (fun c =>
    match chrGet NEMETH_DIGITS c with
    | some cell => cell
    | none => if c = '.' then "⠨" else String.singleton c))

/-- The multi-letter branch of `NemethConverter._render_identifier`. -/
def nemeth_multi (content : String) : String :=
  String.join ((pyLower content).data.map (fun c =>
    match chrGet BRAILLE_LETTERS c with
    | some cell => cell
    | none => String.singleton c))

/-- `NemethConverter._render_identifier`: Greek lookup first, then the
`∞` special case, then single ASCII letters (capital indicator for upper
case), then letter-by-letter transliteration of the lowercased content. -/
def nemeth_identifier (content : String) : String :=
  match tblGet NEMETH_GREEK content with
  | some cells => cells
  | none =>
    if content = "∞" then "⠠⠿"
    else
      match content.data with
      | [c] =>
        match chrGet BRAILLE_LETTERS (pyCharLower c) with
        | some letter => if pyIsUpper c then "⠠" ++ letter else letter
        | none => nemeth_multi content
      | _ => nemeth_multi content

/-- `NemethConverter._render_function`: letters of the lowercased name. -/
def nemeth_function (content : String) : String :=
  String.join ((pyLower content).data.map (fun c =>
    (chrGet BRAILLE_LETTERS c).getD (String.singleton c)))

mutual
/-- `NemethConverter.render`: dispatch on the node type (the instance
fields `_current_mode`, `_needs_baseline`, `_unsupported_nodes` are never
read by any rule, so rendering is a pure function of the node). -/
def nemeth_render : SemanticNode → String
  | .mk t c ch _ _ _ =>
    match t with
    | .ROOT => String.join (nemeth_render_list ch)
    | .GROUP => String.join (nemeth_render_list ch)
    | .NUMBER => nemeth_number c
    | .IDENTIFIER => nemeth_identifier c
    | .OPERATOR => (tblGet NEMETH_OPERATORS c).getD c
    | .RELATION => (tblGet NEMETH_RELATIONS c).getD c
    | .FRACTION =>
        "⠹" ++
        (match ch with
         | [] => ""
         | x :: _ => nemeth_render x) ++
        "⠌" ++
        (match ch with
         | _ :: y :: _ => nemeth_render y
         | _ => "") ++
        "⠼"
    | .SUPERSCRIPT =>
        (match ch with
         | [] => ""
         | x :: _ => nemeth_render x) ++
        "⠘" ++
        (match ch with
         | _ :: y :: _ => nemeth_render y
         | _ => "")
    | .SUBSCRIPT =>
        (match ch with
         | [] => ""
         | x :: _ => nemeth_render x) ++
        "⠰" ++
        (match ch with
         | _ :: y :: _ => nemeth_render y
         | _ => "")
    | .SQRT =>
        "⠜" ++
        (match ch with
         | [] => ""
         | x :: _ => nemeth_render x) ++
        "⠻"
    | .NROOT =>
        (match ch with
         | [] => ""
         | x :: _ => nemeth_render x) ++
        "⠜" ++
        (match ch with
         | _ :: y :: _ => nemeth_render y
         | _ => "") ++
        "⠻"
    | .SUM => "⠠⠨⠎" ++ String.join (nemeth_render_list ch)
    | .INTEGRAL => "⠮" ++ String.join (nemeth_render_list ch)
    | .FUNCTION => nemeth_function c
    | .TEXT => nemeth_text c
    | .PRODUCT | .LIMIT | .MATRIX | .MATRIX_ROW | .SPACE =>
        -- no dedicated method exists: `_render_default`
        if c ≠ "" then nemeth_text c
        else String.join (nemeth_render_list ch)

def nemeth_render_list : List SemanticNode → List String
  | [] => []
  | x :: xs => nemeth_render x :: nemeth_render_list xs
end

/-! ## UEB Braille converter (`braille/ueb.py`) -/

/-- `UEBConverter.DIGITS`. -/
def UEB_DIGITS : List (Char × String) :=
  [('0', "⠚"), ('1', "⠁"), ('2', "⠃"), ('3', "⠉"), ('4', "⠙"),
   ('5', "⠑"), ('6', "⠋"), ('7', "⠛"), ('8', "⠓"), ('9', "⠊")]

/-- `UEBConverter.OPERATORS`. -/
def UEB_OPERATORS : List (String × String) :=
  [("+", "⠬"), ("-", "⠤"), ("−", "⠤"), ("×", "⠐⠦"), ("·", "⠐⠲"),
   ("÷", "⠐⠌"), ("(", "⠐⠣"), (")", "⠐⠜"), ("[", "⠨⠣"), ("]", "⠨⠜")]

/-- `UEBConverter.RELATIONS`. -/
def UEB_RELATIONS : List (String × String) :=
  [("=", "⠐⠶"), ("<", "⠐⠪"), (">", "⠐⠕"), ("≤", "⠐⠪⠶"),
   ("≥", "⠐⠕⠶"), ("≠", "⠐⠶⠈⠱")]

/-- `UEBConverter._render_identifier`: per-character transliteration with
a capital indicator for upper-case ASCII letters; characters outside the
letter table (Greek letters, `∞`, …) pass through unchanged — the UEB
converter has no Greek table and no infinity special case. -/
def ueb_identifier (content : String) : String :=
  String.join (content.data.map (fun c =>
    if pyIsUpper c ∧ (chrGet BRAILLE_LETTERS (pyCharLower c)).isSome then
      "⠠" ++ (chrGet BRAILLE_LETTERS (pyCharLower c)).getD ""
    else
      match chrGet BRAILLE_LETTERS (pyCharLower c) with
      | some cell => cell
      | none => String.singleton c))

/-- `UEBConverter._render_number`. -/
def ueb_number (content : String) : String :=
  "⠼" ++ String.join (content.data.map (fun c =>
    match chrGet UEB_DIGITS c with
    | some cell => cell
    | none => if c = '.' then "⠲" else String.singleton c))

/-- `UEBConverter._render_text`. -/
def ueb_text (content : String) : String :=
  String.join (content.data.map (fun c =>
    if pyIsUpper c ∧ (chrGet BRAILLE_LETTERS (pyCharLower c)).isSome then
      "⠠" ++ (chrGet BRAILLE_LETTERS (pyCharLower c)).getD ""
    else
      match chrGet BRAILLE_LETTERS (pyCharLower c) with
      | some cell => cell
      | none =>
        match chrGet UEB_DIGITS c with
        | some cell => cell
        | none => if c = ' ' then "⠀" else String.singleton c))

/-- `UEBConverter._render_function`. -/
def ueb_function (content : String) : String :=
  String.join ((pyLower content).data.map (fun c =>
    (chrGet BRAILLE_LETTERS c).getD (String.singleton c)))

mutual
/-- `UEBConverter.render`: dispatch on the node type; `NROOT`, `SUM`,
`INTEGRAL` and the other types without a dedicated method fall to
`_render_default`. -/
def ueb_render : SemanticNode → String
  | .mk t c ch _ _ _ =>
    match t with
    | .ROOT => String.join (ueb_render_list ch)
    | .GROUP => String.join (ueb_render_list ch)
    | .NUMBER => ueb_number c
    | .IDENTIFIER => ueb_identifier c
    | .OPERATOR => (tblGet UEB_OPERATORS c).getD c
    | .RELATION => (tblGet UEB_RELATIONS c).getD c
    | .FRACTION =>
        "⠷" ++
        (match ch with
         | [] => ""
         | x :: _ => ueb_render x) ++
        "⠌" ++
        (match ch with
         | _ :: y :: _ => ueb_render y
         | _ => "") ++
        "⠾"
    | .SUPERSCRIPT =>
        (match ch with
         | [] => ""
         | x :: _ => ueb_render x) ++
        "⠔" ++
        (match ch with
         | _ :: y :: _ => ueb_render y
         | _ => "")
    | .SUBSCRIPT =>
        (match ch with
         | [] => ""
         | x :: _ => ueb_render x) ++
        "⠢" ++
        (match ch with
         | _ :: y :: _ => ueb_render y
         | _ => "")
    | .SQRT =>
        "⠩" ++
        (match ch with
         | [] => ""
         | x :: _ => ueb_render x) ++
        "⠱"
    | .FUNCTION => ueb_function c
    | .TEXT => ueb_text c
    | .NROOT | .SUM | .PRODUCT | .INTEGRAL | .LIMIT | .MATRIX
    | .MATRIX_ROW | .SPACE =>
        -- no dedicated method exists: `_render_default`
        if c ≠ "" then ueb_text c
        else String.join (ueb_render_list ch)

def ueb_render_list : List SemanticNode → List String
  | [] => []
  | x :: xs => ueb_render x :: ueb_render_list xs
end

/-! ## LaTeX parser (`core/parser.py`) -/

/-- `ParseError(message, position, source)`; the source is kept as the
character list the parser works on. -/
structure ParseError where
  message : String
  position : Option Nat
  source : Option (List Char)
  deriving DecidableEq, Repr

/-- Python `str.isspace` on the whitespace repertoire relevant here. -/
def pyIsSpace (c : Char) : Bool :=
  c = ' ' || c = '\t' || c = '\n' || c = '\r' || c = '\x0b' || c = '\x0c'

/-- `[a-zA-Z]` of the command-name regex. -/
def isAsciiAlpha (c : Char) : Bool := c.isAlpha

/-- The Greek characters produced by the parser (values of
`MathParser.GREEK_LETTERS`). -/
def GREEK_ALPHA_CHARS : List Char :=
  ['α', 'β', 'γ', 'δ', 'ε', 'ζ', 'η', 'θ', 'ι', 'κ', 'λ', 'μ',
   'ν', 'ξ', 'π', 'ρ', 'σ', 'τ', 'υ', 'φ', 'χ', 'ψ', 'ω',
   'Α', 'Β', 'Γ', 'Δ', 'Θ', 'Λ', 'Ξ', 'Π', 'Σ', 'Φ', 'Ψ', 'Ω']

/-- Python `str.isalpha` (Unicode-aware) modelled on the ASCII range plus
the Greek repertoire this code base uses. -/
def pyIsAlpha (c : Char) : Bool :=
  c.isAlpha || GREEK_ALPHA_CHARS.contains c

/-- Python `str.strip()` (both ends, whitespace). -/
def pyStrip (cs : List Char) : List Char :=
  ((cs.dropWhile pyIsSpace).reverse.dropWhile pyIsSpace).reverse

/-- Python `str.strip("$")`. -/
def stripDollars (cs : List Char) : List Char :=
  ((cs.dropWhile (· = '$')).reverse.dropWhile (· = '$')).reverse

/-- `latex[i]`; out-of-range access is always guarded by a length check in
the code, the default is never observed. -/
def getC (cs : List Char) (i : Nat) : Char := cs.getD i (Char.ofNat 0)

/-- `latex[a:b]`. -/
def pySlice (cs : List Char) (a b : Nat) : List Char := (cs.drop a).take (b - a)

/-- `MathParser.GREEK_LETTERS`, in source order. -/
def GREEK_LETTERS : List (String × String) :=
  [("alpha", "α"), ("beta", "β"), ("gamma", "γ"), ("delta", "δ"),
   ("epsilon", "ε"), ("zeta", "ζ"), ("eta", "η"), ("theta", "θ"),
   ("iota", "ι"), ("kappa", "κ"), ("lambda", "λ"), ("mu", "μ"),
   ("nu", "ν"), ("xi", "ξ"), ("pi", "π"), ("rho", "ρ"),
   ("sigma", "σ"), ("tau", "τ"), ("upsilon", "υ"), ("phi", "φ"),
   ("chi", "χ"), ("psi", "ψ"), ("omega", "ω"),
   ("Alpha", "Α"), ("Beta", "Β"), ("Gamma", "Γ"), ("Delta", "Δ"),
   ("Theta", "Θ"), ("Lambda", "Λ"), ("Xi", "Ξ"), ("Pi", "Π"),
   ("Sigma", "Σ"), ("Phi", "Φ"), ("Psi", "Ψ"), ("Omega", "Ω")]

/-- `MathParser.OPERATORS`. -/
def PARSER_OPERATORS : List (String × String) :=
  [("+", "+"), ("-", "-"), ("*", "×"), ("/", "÷"),
   ("\\times", "×"), ("\\cdot", "·"), ("\\div", "÷"),
   ("\\pm", "±"), ("\\mp", "∓")]

/-- `MathParser.RELATIONS`. -/
def PARSER_RELATIONS : List (String × String) :=
  [("=", "="), ("<", "<"), (">", ">"),
   ("\\leq", "≤"), ("\\geq", "≥"), ("\\neq", "≠"),
   ("\\approx", "≈"), ("\\equiv", "≡"),
   ("\\le", "≤"), ("\\ge", "≥"), ("\\ne", "≠")]

/-- Case-insensitive Greek command lookup: the Python code tests
`cmd.lower() in [k.lower() for k in GREEK_LETTERS]` and then takes the
first key with the same lowercase form. -/
def greek_ci (cmd : String) : Option String :=
  (GREEK_LETTERS.find? (fun kv => kv.1.toLower = cmd.toLower)).map
    (fun kv => kv.2)

/-- Recognized function command names. -/
def FUNCTION_NAMES : List String :=
  ["sin", "cos", "tan", "log", "ln", "exp", "lim"]

/-- The scanning loop of `MathParser._find_matching_brace`: remaining
characters, current depth, current absolute position.  Returns the
position of the matching closing brace, or `none` when the input ends
with positive depth. -/
def fmbGo : List Char → Nat → Nat → Option Nat
  | _, 0, p => some (p - 1)
  | [], _ + 1, _ => none
  | c :: rest, d + 1, p =>
      fmbGo rest (if c = '{' then d + 2 else if c = '}' then d else d + 1)
        (p + 1)

/-- `MathParser._find_matching_brace`: depth counting from the opening
brace; unmatched braces raise `ParseError("Unclosed brace", pos, latex)`
with `pos` the position after the scan (the input length). -/
def find_matching_brace (latex : List Char) (pos : Nat) :
    Except ParseError Nat :=
  match fmbGo (latex.drop (pos + 1)) 1 (pos + 1) with
  | some j => .ok j
  | none => .error ⟨"Unclosed brace", some latex.length, some latex⟩

/-- `MathParser._skip_whitespace`. -/
def skip_whitespace (latex : List Char) (pos : Nat) : Nat :=
  pos + ((latex.drop pos).takeWhile pyIsSpace).length

/-- The scanning loop of `MathParser._parse_number` (digits with at most
one decimal point); returns the consumed characters. -/
def number_go : List Char → Bool → List Char
  | [], _ => []
  | c :: rest, hasDec =>
      if c.isDigit then c :: number_go rest hasDec
      else if c = '.' ∧ ¬hasDec then c :: number_go rest true
      else []

/-- An out-of-fuel marker.  `parse_latex` supplies `length + 1` fuel and
every recursion layer consumes at least one input character, so this is
never reached from the public entry point. -/
def fuelError : ParseError := ⟨"fuel exhausted", none, none⟩

/-- One stack frame of the parser's mutually recursive procedures
(`_parse_latex_tokens`, `_parse_latex_command`, `_parse_frac`,
`_parse_sqrt`, `_parse_latex_super`, `_parse_latex_sub`): they are
modelled as a single fuel-indexed function `parse_run` over this frame
type so that evaluation is structural; the named wrappers below recover
the source functions. -/
inductive PFrame where
  | tokens (latex : List Char) (pos : Nat) (parent : SemanticNode)
  | command (latex : List Char) (pos : Nat) (parent : SemanticNode)
  | frac (latex : List Char) (pos : Nat) (parent : SemanticNode)
  | sqrtOpt (latex : List Char) (pos : Nat) (parent : SemanticNode)
  | sqrtRad (latex : List Char) (pos : Nat) (parent : SemanticNode)
            (idxContent : Option (List Char))
  | sup (latex : List Char) (pos : Nat) (parent : SemanticNode)
  | sub (latex : List Char) (pos : Nat) (parent : SemanticNode)

/-- The parser procedures.  Every result is the updated parent together
with the position after the consumed region (the `tokens` frame, whose
Python original mutates its parent and returns `None`, reports the final
scan position, which callers ignore). -/
def parse_run : Nat → PFrame → Except ParseError (SemanticNode × Nat)
  | 0, _ => .error fuelError
  | fuel + 1, fr =>
    match fr with
    | .tokens latex pos parent =>
      -- `MathParser._parse_latex_tokens`
      if latex.length ≤ pos then .ok (parent, pos)
      else
        let c := getC latex pos
        if pyIsSpace c then parse_run fuel (.tokens latex (pos + 1) parent)
        else if c = '\\' then
          match parse_run fuel (.command latex pos parent) with
          | .error e => .error e
          | .ok (p', pos') => parse_run fuel (.tokens latex pos' p')
        else if c = '^' then
          match parse_run fuel (.sup latex pos parent) with
          | .error e => .error e
          | .ok (p', pos') => parse_run fuel (.tokens latex pos' p')
        else if c = '_' then
          match parse_run fuel (.sub latex pos parent) with
          | .error e => .error e
          | .ok (p', pos') => parse_run fuel (.tokens latex pos' p')
        else if c = '{' then
          match find_matching_brace latex pos with
          | .error e => .error e
          | .ok endPos =>
            match parse_run fuel
                (.tokens (pySlice latex (pos + 1) endPos) 0
                  (.mk .GROUP "" [] [] pendingId [])) with
            | .error e => .error e
            | .ok (group, _) =>
              parse_run fuel
                (.tokens latex (endPos + 1) (add_child parent group))
        else if c = '(' then
          parse_run fuel (.tokens latex (pos + 1)
            (add_child parent (.mk .OPERATOR "(" [] [] pendingId [])))
        else if c = ')' then
          parse_run fuel (.tokens latex (pos + 1)
            (add_child parent (.mk .OPERATOR ")" [] [] pendingId [])))
        else if c = '+' ∨ c = '-' ∨ c = '*' ∨ c = '/' then
          let op := (tblGet PARSER_OPERATORS (String.singleton c)).getD
            (String.singleton c)
          parse_run fuel (.tokens latex (pos + 1)
            (add_child parent (.mk .OPERATOR op [] [] pendingId [])))
        else if c = '=' ∨ c = '<' ∨ c = '>' then
          let rel := (tblGet PARSER_RELATIONS (String.singleton c)).getD
            (String.singleton c)
          parse_run fuel (.tokens latex (pos + 1)
            (add_child parent (.mk .RELATION rel [] [] pendingId [])))
        else if c.isDigit ∨
            (c = '.' ∧ pos + 1 < latex.length ∧
              (getC latex (pos + 1)).isDigit) then
          let numChars := number_go (latex.drop pos) false
          parse_run fuel (.tokens latex (pos + numChars.length)
            (add_child parent
              (.mk .NUMBER (String.mk numChars) [] [] pendingId [])))
        else if pyIsAlpha c then
          parse_run fuel (.tokens latex (pos + 1)
            (add_child parent
              (.mk .IDENTIFIER (String.singleton c) [] [] pendingId [])))
        else
          parse_run fuel (.tokens latex (pos + 1)
            (add_child parent
              (.mk .TEXT (String.singleton c) [] [] pendingId [])))
    | .command latex pos parent =>
      -- `MathParser._parse_latex_command`
      let cmdChars := (latex.drop (pos + 1)).takeWhile isAsciiAlpha
      if cmdChars = [] then .ok (parent, pos + 1)
      else
        let cmd := String.mk cmdChars
        let cmdEnd := pos + 1 + cmdChars.length
        if cmd = "frac" then parse_run fuel (.frac latex cmdEnd parent)
        else if cmd = "sqrt" then
          parse_run fuel (.sqrtOpt latex cmdEnd parent)
        else if cmd = "sum" then
          .ok (add_child parent (.mk .SUM "∑" [] [] pendingId []), cmdEnd)
        else if cmd = "prod" then
          .ok (add_child parent (.mk .PRODUCT "∏" [] [] pendingId []),
               cmdEnd)
        else if cmd = "int" then
          .ok (add_child parent (.mk .INTEGRAL "∫" [] [] pendingId []),
               cmdEnd)
        else
          match greek_ci cmd with
          | some letter =>
            .ok (add_child parent
                  (.mk .IDENTIFIER letter [] [] pendingId []), cmdEnd)
          | none =>
            match tblGet PARSER_OPERATORS ("\\" ++ cmd) with
            | some op =>
              .ok (add_child parent (.mk .OPERATOR op [] [] pendingId []),
                   cmdEnd)
            | none =>
              match tblGet PARSER_RELATIONS ("\\" ++ cmd) with
              | some rel =>
                .ok (add_child parent
                      (.mk .RELATION rel [] [] pendingId []), cmdEnd)
              | none =>
                if cmd = "infty" then
                  .ok (add_child parent
                        (.mk .IDENTIFIER "∞" [] [] pendingId []), cmdEnd)
                else if cmd ∈ FUNCTION_NAMES then
                  .ok (add_child parent
                        (.mk .FUNCTION cmd [] [] pendingId []), cmdEnd)
                else
                  .ok (add_child parent
                        (.mk .TEXT ("\\" ++ cmd) []
                          [("unknown_command", .b true)] pendingId []),
                       cmdEnd)
    | .frac latex pos parent =>
      -- `MathParser._parse_frac`
      let pos1 := skip_whitespace latex pos
      if latex.length ≤ pos1 ∨ getC latex pos1 ≠ '{' then
        .error ⟨"Expected \x7b after \\frac", some pos1, some latex⟩
      else
        match find_matching_brace latex pos1 with
        | .error e => .error e
        | .ok numEnd =>
          let numContent := pySlice latex (pos1 + 1) numEnd
          let pos2 := skip_whitespace latex (numEnd + 1)
          if latex.length ≤ pos2 ∨ getC latex pos2 ≠ '{' then
            .error ⟨"Expected \x7b for denominator", some pos2, some latex⟩
          else
            match find_matching_brace latex pos2 with
            | .error e => .error e
            | .ok denomEnd =>
              let denomContent := pySlice latex (pos2 + 1) denomEnd
              match parse_run fuel (.tokens numContent 0
                  (.mk .GROUP "" [] [("role", .s "numerator")] pendingId
                    [])) with
              | .error e => .error e
              | .ok (numNode, _) =>
                match parse_run fuel (.tokens denomContent 0
                    (.mk .GROUP "" [] [("role", .s "denominator")]
                      pendingId [])) with
                | .error e => .error e
                | .ok (denomNode, _) =>
                  .ok (add_child parent
                        (.mk .FRACTION "" [numNode, denomNode] []
                          pendingId []),
                       denomEnd + 1)
    | .sqrtOpt latex pos parent =>
      -- `MathParser._parse_sqrt`, the optional `[n]` index
      let pos1 := skip_whitespace latex pos
      if pos1 < latex.length ∧ getC latex pos1 = '[' then
        match ((latex.drop pos1).findIdx? (fun c => c = ']')).map
            (fun k => k + pos1) with
        | none => .error ⟨"Unclosed [ in sqrt", some pos1, some latex⟩
        | some bracketEnd =>
          parse_run fuel (.sqrtRad latex
            (skip_whitespace latex (bracketEnd + 1)) parent
            (some (pySlice latex (pos1 + 1) bracketEnd)))
      else parse_run fuel (.sqrtRad latex pos1 parent none)
    | .sqrtRad latex pos parent idxContent =>
      -- `MathParser._parse_sqrt`, radicand and node construction
      if latex.length ≤ pos ∨ getC latex pos ≠ '{' then
        .error ⟨"Expected \x7b after \\sqrt", some pos, some latex⟩
      else
        match find_matching_brace latex pos with
        | .error e => .error e
        | .ok braceEnd =>
          let radContent := pySlice latex (pos + 1) braceEnd
          -- `if index_content:` - present and non-empty
          if (idxContent.getD []) ≠ [] then
            match parse_run fuel (.tokens (idxContent.getD []) 0
                (.mk .GROUP "" [] [("role", .s "index")] pendingId []))
              with
            | .error e => .error e
            | .ok (idxNode, _) =>
              match parse_run fuel (.tokens radContent 0
                  (.mk .GROUP "" [] [("role", .s "radicand")] pendingId
                    [])) with
              | .error e => .error e
              | .ok (radNode, _) =>
                .ok (add_child parent
                      (.mk .NROOT "" [idxNode, radNode] [] pendingId []),
                     braceEnd + 1)
          else
            match parse_run fuel (.tokens radContent 0
                (.mk .GROUP "" [] [("role", .s "radicand")] pendingId []))
              with
            | .error e => .error e
            | .ok (radNode, _) =>
              .ok (add_child parent
                    (.mk .SQRT "" [radNode] [] pendingId []), braceEnd + 1)
    | .sup latex pos parent =>
      -- `MathParser._parse_latex_super` (`pos + 1` is the position after
      -- the `^` mark)
      match parent with
      | .mk t c ch m i a =>
        match ch.getLast? with
        | none =>
          .error ⟨"Superscript without base", some (pos + 1), some latex⟩
        | some base =>
          if pos + 1 < latex.length ∧ getC latex (pos + 1) = '{' then
            match find_matching_brace latex (pos + 1) with
            | .error e => .error e
            | .ok braceEnd =>
              match parse_run fuel
                  (.tokens (pySlice latex (pos + 2) braceEnd) 0
                    (.mk .GROUP "" [] [("role", .s "exponent")] pendingId
                      [])) with
              | .error e => .error e
              | .ok (expNode, _) =>
                .ok (.mk t c
                      (ch.dropLast ++
                        [.mk .SUPERSCRIPT "" [base, expNode] [] pendingId
                          []])
                      m i a,
                     braceEnd + 1)
          else
            match parse_run fuel (.tokens
                (if pos + 1 < latex.length then [getC latex (pos + 1)]
                 else []) 0
                (.mk .GROUP "" [] [("role", .s "exponent")] pendingId []))
              with
            | .error e => .error e
            | .ok (expNode, _) =>
              .ok (.mk t c
                    (ch.dropLast ++
                      [.mk .SUPERSCRIPT "" [base, expNode] [] pendingId
                        []])
                    m i a,
                   pos + 2)
    | .sub latex pos parent =>
      -- `MathParser._parse_latex_sub` (`pos + 1` is the position after
      -- the `_` mark)
      match parent with
      | .mk t c ch m i a =>
        match ch.getLast? with
        | none =>
          .error ⟨"Subscript without base", some (pos + 1), some latex⟩
        | some base =>
          if pos + 1 < latex.length ∧ getC latex (pos + 1) = '{' then
            match find_matching_brace latex (pos + 1) with
            | .error e => .error e
            | .ok braceEnd =>
              match parse_run fuel
                  (.tokens (pySlice latex (pos + 2) braceEnd) 0
                    (.mk .GROUP "" [] [("role", .s "subscript")] pendingId
                      [])) with
              | .error e => .error e
              | .ok (subNode, _) =>
                .ok (.mk t c
                      (ch.dropLast ++
                        [.mk .SUBSCRIPT "" [base, subNode] [] pendingId
                          []])
                      m i a,
                     braceEnd + 1)
          else
            match parse_run fuel (.tokens
                (if pos + 1 < latex.length then [getC latex (pos + 1)]
                 else []) 0
                (.mk .GROUP "" [] [("role", .s "subscript")] pendingId []))
              with
            | .error e => .error e
            | .ok (subNode, _) =>
              .ok (.mk t c
                    (ch.dropLast ++
                      [.mk .SUBSCRIPT "" [base, subNode] [] pendingId []])
                    m i a,
                   pos + 2)

/-- `MathParser._parse_latex_tokens` (adds the parsed tokens of
`latex[pos:]` to `parent`). -/
def parse_latex_tokens (fuel : Nat) (latex : List Char) (pos : Nat)
    (parent : SemanticNode) : Except ParseError SemanticNode :=
  (parse_run fuel (.tokens latex pos parent)).map (fun r => r.1)

/-- `MathParser._parse_latex_command`. -/
def parse_latex_command (fuel : Nat) (latex : List Char) (pos : Nat)
    (parent : SemanticNode) : Except ParseError (SemanticNode × Nat) :=
  parse_run fuel (.command latex pos parent)

/-- `MathParser._parse_frac`. -/
def parse_frac (fuel : Nat) (latex : List Char) (pos : Nat)
    (parent : SemanticNode) : Except ParseError (SemanticNode × Nat) :=
  parse_run fuel (.frac latex pos parent)

/-- `MathParser._parse_sqrt`. -/
def parse_sqrt (fuel : Nat) (latex : List Char) (pos : Nat)
    (parent : SemanticNode) : Except ParseError (SemanticNode × Nat) :=
  parse_run fuel (.sqrtOpt latex pos parent)

/-- `MathParser._parse_latex_super`. -/
def parse_latex_super (fuel : Nat) (latex : List Char) (pos : Nat)
    (parent : SemanticNode) : Except ParseError (SemanticNode × Nat) :=
  parse_run fuel (.sup latex pos parent)

/-- `MathParser._parse_latex_sub`. -/
def parse_latex_sub (fuel : Nat) (latex : List Char) (pos : Nat)
    (parent : SemanticNode) : Except ParseError (SemanticNode × Nat) :=
  parse_run fuel (.sub latex pos parent)

/-- `MathParser.parse_latex`: strip `$` delimiters and whitespace, then
scan into a fresh `ROOT` node carrying the source in its metadata.
The fuel budget `(length + 2)²` is never exhausted: every `parse_run`
layer either consumes at least one input character before recursing, or
is one of at most four frame-transition steps between consumptions
(`tokens → command → sqrtOpt → sqrtRad`), and every nested region is a
strict substring, so the total recursion depth is linear in the input
length with a small constant, far below the quadratic budget. -/
def parse_latex (input : List Char) : Except ParseError SemanticNode :=
  let latex := pyStrip (stripDollars (pyStrip input))
  parse_latex_tokens ((latex.length + 2) * (latex.length + 2)) latex 0
    (.mk .ROOT "" [] [("source", .s (String.mk latex))] pendingId [])

/-- The LaTeX input `\frac{a}{b}`. -/
def latexFracAB : List Char := "\\frac\x7ba\x7d\x7bb\x7d".data

/-! ## Claim C8: unclosed braces -/

/-- Depth change contributed by one character in the brace scan. -/
def braceChg (c : Char) : Int :=
  if c = '{' then 1 else if c = '}' then -1 else 0

/-- Forward depth count of a character sequence (the specification's
"brace matching is computed by depth counting"). -/
def braceBal (l : List Char) : Int := (l.map braceChg).sum

/-- The LaTeX input `\frac{a}{b` (denominator brace never closed). -/
def latexFracOpen : List Char := "\\frac\x7ba\x7d\x7bb".data

/-- The LaTeX input `^{a`: it contains an opening brace (position 1)
with no matching closing brace. -/
def latexCaretBrace : List Char := "^\x7ba".data

def identX : SemanticNode := .mk .IDENTIFIER "x" [] [] pendingId []

/-- The Superscript node parsed from `x^2` with base `x`. -/
def supNodeX2 : SemanticNode :=
  .mk .SUPERSCRIPT ""
    [identX,
     .mk .GROUP "" [.mk .NUMBER "2" [] [] pendingId []]
       [("role", .s "exponent")] pendingId []]
    [] pendingId []

/-! ## Serialization (`to_dict` / `from_dict`) -/

/-- The dictionary shape produced by `SemanticNode.to_dict` and consumed
by `SemanticNode.from_dict`; `Option` models keys that `from_dict`
defaults when absent (`data.get(...)` / `in data` checks). -/
inductive NodeDict where
  | mk (type : String) (content : Option String)
       (children : Option (List NodeDict))
       (metadata : Option (List (String × MetaVal)))
       (node_id : Option String)
       (accessibility : Option (List (String × String)))

mutual
/-- `SemanticNode.to_dict`: every key is emitted. -/
def to_dict : SemanticNode → NodeDict
  | .mk t c ch m i a =>
    .mk t.pyName (some c) (some (to_dict_list ch)) (some m) (some i)
      (some a)

def to_dict_list : List SemanticNode → List NodeDict
  | [] => []
  | x :: xs => to_dict x :: to_dict_list xs
end

mutual
/-- `SemanticNode.from_dict`: `none` models the `KeyError` on an unknown
type name; missing `content`/`children`/`metadata` default to
empty; a missing `node_id` keeps the freshly generated id (the
`pendingId` placeholder), and missing `accessibility` keeps `{}`. -/
def from_dict : NodeDict → Option SemanticNode
  | .mk ty c (some chl) m nid acc =>
    match NodeType.ofPyName ty with
    | none => none
    | some t =>
      match from_dict_list chl with
      | none => none
      | some kids =>
        some (.mk t (c.getD "") kids (m.getD []) (nid.getD pendingId)
          (acc.getD []))
  | .mk ty c none m nid acc =>
    match NodeType.ofPyName ty with
    | none => none
    | some t =>
      some (.mk t (c.getD "") [] (m.getD []) (nid.getD pendingId)
        (acc.getD []))

def from_dict_list : List NodeDict → Option (List SemanticNode)
  | [] => some []
  | d :: ds =>
    match from_dict d with
    | none => none
    | some n =>
      match from_dict_list ds with
      | none => none
      | some ns => some (n :: ns)
end

/-! ## Claim C9: nested group chains -/

/-- The input `{…{a}…}` with `n` nesting levels. -/
def nestedChars (n : Nat) : List Char :=
  List.replicate n '{' ++ 'a' :: List.replicate n '}'

/-- The tree parsed from `{…{a}…}`: `n` nested Groups around the
Identifier `a`. -/
def nestedGroup : Nat → SemanticNode
  | 0 => identA
  | k + 1 => .mk .GROUP "" [nestedGroup k] [] pendingId []

/-! ## MathML parsing (`core/parser.py`, `_parse_mathml_element`) -/

/-- An XML element as seen by `_parse_mathml_element` (the XML text
decoding itself is done by the external `xml.etree` library). -/
inductive XElem where
  | mk (tag : String) (text : Option String) (children : List XElem)

/-- `tag.split("}")[-1] if "}" in tag else tag`: strip the namespace
part. -/
def local_tag (t : String) : String :=
  if t.data.contains '}' then
    String.mk ((t.data.reverse.takeWhile (fun c => c ≠ '}')).reverse)
  else t

/-- Python `str.strip()` on a string. -/
def pyStripStr (s : String) : String := String.mk (pyStrip s.data)

/-- The relation repertoire string of the `mo` rule (`text in "=<>≤≥≠"`
is a substring test in Python). -/
def MO_RELATION_CHARS : List Char := "=<>≤≥≠".data

/-- Python's `needle in hay` on strings: contiguous substring test. -/
def pySubstring (needle hay : List Char) : Bool :=
  (List.range (hay.length + 1)).any
    (fun i => ((hay.drop i).take needle.length) == needle)

mutual
/-- `MathParser._parse_mathml_element`: walk an element into `parent`. -/
def parse_mathml_element : XElem → SemanticNode → SemanticNode
  | .mk tag text ch, parent =>
    let t := local_tag tag
    if t = "math" then parse_mathml_children ch parent
    else if t = "mrow" then
      add_child parent
        (parse_mathml_children ch (.mk .GROUP "" [] [] pendingId []))
    else if t = "mfrac" then
      match ch with
      | c0 :: c1 :: _ =>
        add_child parent
          (.mk .FRACTION ""
            [parse_mathml_element c0
              (.mk .GROUP "" [] [("role", .s "numerator")] pendingId []),
             parse_mathml_element c1
              (.mk .GROUP "" [] [("role", .s "denominator")] pendingId [])]
            [] pendingId [])
      | _ => add_child parent (.mk .FRACTION "" [] [] pendingId [])
    else if t = "msup" then
      match ch with
      | c0 :: c1 :: _ =>
        add_child parent
          (.mk .SUPERSCRIPT ""
            [parse_mathml_element c0
              (.mk .GROUP "" [] [("role", .s "base")] pendingId []),
             parse_mathml_element c1
              (.mk .GROUP "" [] [("role", .s "exponent")] pendingId [])]
            [] pendingId [])
      | _ => add_child parent (.mk .SUPERSCRIPT "" [] [] pendingId [])
    else if t = "msub" then
      match ch with
      | c0 :: c1 :: _ =>
        add_child parent
          (.mk .SUBSCRIPT ""
            [parse_mathml_element c0
              (.mk .GROUP "" [] [("role", .s "base")] pendingId []),
             parse_mathml_element c1
              (.mk .GROUP "" [] [("role", .s "subscript")] pendingId [])]
            [] pendingId [])
      | _ => add_child parent (.mk .SUBSCRIPT "" [] [] pendingId [])
    else if t = "msqrt" then
      add_child parent
        (.mk .SQRT ""
          [parse_mathml_children ch
            (.mk .GROUP "" [] [("role", .s "radicand")] pendingId [])]
          [] pendingId [])
    else if t = "mi" then
      add_child parent
        (.mk .IDENTIFIER (pyStripStr (text.getD "")) [] [] pendingId [])
    else if t = "mn" then
      add_child parent
        (.mk .NUMBER (pyStripStr (text.getD "")) [] [] pendingId [])
    else if t = "mo" then
      if pySubstring (pyStripStr (text.getD "")).data MO_RELATION_CHARS then
        add_child parent
          (.mk .RELATION (pyStripStr (text.getD "")) [] [] pendingId [])
      else
        add_child parent
          (.mk .OPERATOR (pyStripStr (text.getD "")) [] [] pendingId [])
    else if t = "mtext" then
      add_child parent
        (.mk .TEXT (pyStripStr (text.getD "")) [] [] pendingId [])
    else parse_mathml_children ch parent

def parse_mathml_children : List XElem → SemanticNode → SemanticNode
  | [], parent => parent
  | e :: es, parent =>
    parse_mathml_children es (parse_mathml_element e parent)
end

/-- `MathParser.parse_mathml` after the external XML decode: walk the
decoded element into a fresh root.  (The Python root also records the
raw XML text in its `source` metadata; the element model does not retain
the raw text, and nothing else reads it.) -/
def parse_mathml (e : XElem) : SemanticNode :=
  parse_mathml_element e (.mk .ROOT "" [] [] pendingId [])

/-! ## Claim C4: determinism of the render pipeline

The only nondeterminism in the Python pipeline is the `uuid.uuid4()`
draw for each node's `node_id`.  It is modelled by decorating the parsed
tree with ids from an arbitrary supply `u : Nat → String`; quantifying
over all supplies covers every possible sequence of random uuids. -/

mutual
/-- Decorate every node with a fresh id from the supply (pre-order). -/
def assign_ids (u : Nat → String) : Nat → SemanticNode → SemanticNode × Nat
  | k, .mk t c ch m _ a =>
    let r := assign_ids_list u (k + 1) ch
    (.mk t c r.1 m (u k) a, r.2)

def assign_ids_list (u : Nat → String) :
    Nat → List SemanticNode → List SemanticNode × Nat
  | k, [] => ([], k)
  | k, x :: xs =>
    let rx := assign_ids u k x
    let rxs := assign_ids_list u rx.2 xs
    (rx.1 :: rxs.1, rxs.2)
end

mutual
/-- Blank out every node id (the renderers never read them). -/
def erase_ids : SemanticNode → SemanticNode
  | .mk t c ch m _ a => .mk t c (erase_ids_list ch) m "" a

def erase_ids_list : List SemanticNode → List SemanticNode
  | [] => []
  | x :: xs => erase_ids x :: erase_ids_list xs
end

/-- The per-node composition of the speech renderer as a function of the
node type, content, and the list of already-rendered children: used to
show the renderers never read node ids. -/
def speech_compose (v : SpeechStyle) (ty : NodeType) (c : String)
    (rs : List String) : String :=
  match ty with
  | .ROOT => join_parts rs
  | .GROUP => join_parts rs
  | .NUMBER => (tblGet NUMBER_NAMES c).getD c
  | .IDENTIFIER => (tblGet IDENTIFIER_NAMES c).getD c
  | .OPERATOR => (tblGet OPERATOR_NAMES c).getD c
  | .RELATION => (tblGet RELATION_NAMES c).getD c
  | .FUNCTION => c
  | .FRACTION =>
      join_parts
        ((let s := get_phrase "fraction_start" v
          if s ≠ "" then [s] else []) ++
         (match rs with
          | [] => []
          | r :: _ => [r]) ++
         [get_phrase "fraction_over" v] ++
         (match rs with
          | _ :: r2 :: _ => [r2]
          | _ => []) ++
         (let e := get_phrase "fraction_end" v
          if e ≠ "" then [e] else []))
  | .SUPERSCRIPT =>
      join_parts
        ((match rs with
          | [] => []
          | r :: _ => [r]) ++
         [get_phrase "superscript" v] ++
         (match rs with
          | _ :: r2 :: _ => [r2]
          | _ => []))
  | .SUBSCRIPT =>
      join_parts
        ((match rs with
          | [] => []
          | r :: _ => [r]) ++
         [get_phrase "subscript" v] ++
         (match rs with
          | _ :: r2 :: _ => [r2]
          | _ => []))
  | .SQRT =>
      join_parts
        ([get_phrase "sqrt" v] ++
         (match rs with
          | [] => []
          | r :: _ => [r]) ++
         (let e := get_phrase "sqrt_end" v
          if e ≠ "" then [e] else []))
  | .NROOT =>
      join_parts
        ((match rs with
          | [] => []
          | r :: _ => [r]) ++
         [get_phrase "nroot" v] ++
         (match rs with
          | _ :: r2 :: _ => [r2]
          | _ => []))
  | .SUM => join_parts (get_phrase "sum" v :: rs)
  | .INTEGRAL => join_parts (get_phrase "integral" v :: rs)
  | .TEXT => c
  | .PRODUCT | .LIMIT | .MATRIX | .MATRIX_ROW | .SPACE =>
      if c ≠ "" then c else join_parts rs

/-- The per-node composition of the Nemeth converter. -/
def nemeth_compose (ty : NodeType) (c : String) (rs : List String) :
    String :=
  match ty with
  | .ROOT => String.join rs
  | .GROUP => String.join rs
  | .NUMBER => nemeth_number c
  | .IDENTIFIER => nemeth_identifier c
  | .OPERATOR => (tblGet NEMETH_OPERATORS c).getD c
  | .RELATION => (tblGet NEMETH_RELATIONS c).getD c
  | .FRACTION =>
      "⠹" ++
      (match rs with
       | [] => ""
       | r :: _ => r) ++
      "⠌" ++
      (match rs with
       | _ :: r2 :: _ => r2
       | _ => "") ++
      "⠼"
  | .SUPERSCRIPT =>
      (match rs with
       | [] => ""
       | r :: _ => r) ++
      "⠘" ++
      (match rs with
       | _ :: r2 :: _ => r2
       | _ => "")
  | .SUBSCRIPT =>
      (match rs with
       | [] => ""
       | r :: _ => r) ++
      "⠰" ++
      (match rs with
       | _ :: r2 :: _ => r2
       | _ => "")
  | .SQRT =>
      "⠜" ++
      (match rs with
       | [] => ""
       | r :: _ => r) ++
      "⠻"
  | .NROOT =>
      (match rs with
       | [] => ""
       | r :: _ => r) ++
      "⠜" ++
      (match rs with
       | _ :: r2 :: _ => r2
       | _ => "") ++
      "⠻"
  | .SUM => "⠠⠨⠎" ++ String.join rs
  | .INTEGRAL => "⠮" ++ String.join rs
  | .FUNCTION => nemeth_function c
  | .TEXT => nemeth_text c
  | .PRODUCT | .LIMIT | .MATRIX | .MATRIX_ROW | .SPACE =>
      if c ≠ "" then nemeth_text c else String.join rs

/-- The per-node composition of the UEB converter. -/
def ueb_compose (ty : NodeType) (c : String) (rs : List String) :
    String :=
  match ty with
  | .ROOT => String.join rs
  | .GROUP => String.join rs
  | .NUMBER => ueb_number c
  | .IDENTIFIER => ueb_identifier c
  | .OPERATOR => (tblGet UEB_OPERATORS c).getD c
  | .RELATION => (tblGet UEB_RELATIONS c).getD c
  | .FRACTION =>
      "⠷" ++
      (match rs with
       | [] => ""
       | r :: _ => r) ++
      "⠌" ++
      (match rs with
       | _ :: r2 :: _ => r2
       | _ => "") ++
      "⠾"
  | .SUPERSCRIPT =>
      (match rs with
       | [] => ""
       | r :: _ => r) ++
      "⠔" ++
      (match rs with
       | _ :: r2 :: _ => r2
       | _ => "")
  | .SUBSCRIPT =>
      (match rs with
       | [] => ""
       | r :: _ => r) ++
      "⠢" ++
      (match rs with
       | _ :: r2 :: _ => r2
       | _ => "")
  | .SQRT =>
      "⠩" ++
      (match rs with
       | [] => ""
       | r :: _ => r) ++
      "⠱"
  | .FUNCTION => ueb_function c
  | .TEXT => ueb_text c
  | .NROOT | .SUM | .PRODUCT | .INTEGRAL | .LIMIT | .MATRIX
  | .MATRIX_ROW | .SPACE =>
      if c ≠ "" then ueb_text c else String.join rs

/-- `BrailleNotation` from `config.py`. -/
inductive BrailleNotation where
  | nemeth | ueb
  deriving DecidableEq, Repr

/-- The configuration fields the core renderers consume (`config.py`:
speech style/language, Braille notation and indicator flag). -/
structure Config where
  speechStyle : SpeechStyle
  language : String
  brailleNotation : BrailleNotation
  includeIndicators : Bool

/-- The full LaTeX pipeline: parse, draw node ids from the supply `u`,
render to speech, Nemeth and UEB. -/
def render_pipeline (u : Nat → String) (cfg : Config)
    (input : List Char) : Except ParseError (String × String × String) :=
  (parse_latex input).map (fun t =>
    ((assign_ids u 0 t).1 |> speech_render cfg.speechStyle,
     (assign_ids u 0 t).1 |> nemeth_render,
     (assign_ids u 0 t).1 |> ueb_render))

/-- The MathML pipeline over a decoded element tree. -/
def render_pipeline_mathml (u : Nat → String) (cfg : Config)
    (e : XElem) : String × String × String :=
  ((assign_ids u 0 (parse_mathml e)).1 |> speech_render cfg.speechStyle,
   (assign_ids u 0 (parse_mathml e)).1 |> nemeth_render,
   (assign_ids u 0 (parse_mathml e)).1 |> ueb_render)

/-! ## Theorems -/

/-- Induction principle for the nested tree type: to prove `P` for a node
it suffices to prove it assuming `P` for every child. -/
theorem SemanticNode.ind (P : SemanticNode → Prop)
    (h : ∀ t c ch m i a, (∀ x ∈ ch, P x) → P (.mk t c ch m i a)) :
    ∀ n, P n :=
  fun n =>
    @SemanticNode.rec (fun n => P n) (fun l => ∀ x ∈ l, P x)
      (fun t c ch m i a ih => h t c ch m i a ih)
      (fun _ hx => nomatch hx)
      (fun _ _ hy hys x hx => by
        cases hx with
        | head => exact hy
        | tail _ h2 => exact hys x h2)
      n

/-- Claim C1: for a navigator started at `Fraction[Group[Identifier "a"],
Group[Identifier "b"]]`, the claim says `enter()` moves to `"a"` (true),
a subsequent `next()` moves to `"b"`, and `exit()` then returns to the
Fraction.  The code disagrees: `enter()` does land on `"a"`, but `next()`
returns `False` with the cursor still on `"a"` (the sibling list is
recomputed from the real parent — the numerator Group, which has a single
navigable child), and `exit()` then succeeds but moves to that Group, not
to the Fraction.  This theorem evaluates the navigator at the failing
input and records the actual behaviour. -/
theorem C1_navigator_on_example_D :
    (nav_enter (nav_init fracAB)).1 = true ∧
    node_at fracAB (nav_enter (nav_init fracAB)).2.path = some identA ∧
    nav_next (nav_enter (nav_init fracAB)).2 =
      (false, (nav_enter (nav_init fracAB)).2) ∧
    (nav_exit (nav_enter (nav_init fracAB)).2).1 = true ∧
    node_at fracAB (nav_exit (nav_enter (nav_init fracAB)).2).2.path =
      some groupA :=
  ⟨rfl, rfl, rfl, rfl, rfl⟩

/-- Claim C2 (counterexample): the claim says both Braille converters put
every Greek-letter identifier through a Greek lookup rather than passing
the character through unchanged, and special-case `∞`.  The UEB
converter does neither: the Identifier `"α"` renders to `"α"` itself and
`"∞"` to `"∞"` — both pass through unchanged.  And even the Nemeth
converter fails for capital Ξ (producible via MathML `<mi>Ξ</mi>`): its
`GREEK` table has no entry for `"Ξ"`, so the identifier falls through to
the lowercasing fallback and renders as the bare character `"ξ"`, with
no Greek-letter indicator and no capital indicator. -/
theorem C2_counterexample_ueb_passthrough :
    ueb_render (.mk .IDENTIFIER "α" [] [] pendingId []) = "α" ∧
    ueb_render (.mk .IDENTIFIER "∞" [] [] pendingId []) = "∞" ∧
    tblGet NEMETH_GREEK "Ξ" = none ∧
    nemeth_render (.mk .IDENTIFIER "Ξ" [] [] pendingId []) = "ξ" :=
  ⟨rfl, rfl, rfl, rfl⟩

/-- Claim C2 (amended): over the Greek repertoire this code base
produces (`GREEK_ALPHA_CHARS`, the values of the parser's Greek command
table), the Nemeth converter renders every Greek-letter identifier
except capital Ξ through its `GREEK` lookup, performed before any other
rule, yielding the table's cell sequence (the capital indicator is built
into the entries for capital letters); capital Ξ is absent from the
table and is rendered by the lowercasing fallback as the bare character
`"ξ"`.  Nemeth special-cases `"∞"` (to `"⠠⠿"`).  The UEB converter has
no Greek lookup and no `"∞"` case and passes every Greek letter and
`"∞"` through unchanged. -/
theorem C2_greek_identifier_rendering :
    (∀ c ∈ GREEK_ALPHA_CHARS, c ≠ 'Ξ' →
      (tblGet NEMETH_GREEK (String.singleton c)).isSome = true ∧
      nemeth_render
          (.mk .IDENTIFIER (String.singleton c) [] [] pendingId []) =
        (tblGet NEMETH_GREEK (String.singleton c)).getD "") ∧
    tblGet NEMETH_GREEK "Ξ" = none ∧
    nemeth_render (.mk .IDENTIFIER "Ξ" [] [] pendingId []) = "ξ" ∧
    nemeth_render (.mk .IDENTIFIER "∞" [] [] pendingId []) = "⠠⠿" ∧
    (∀ c ∈ GREEK_ALPHA_CHARS,
      ueb_render (.mk .IDENTIFIER (String.singleton c) [] [] pendingId [])
        = String.singleton c) ∧
    ueb_render (.mk .IDENTIFIER "∞" [] [] pendingId []) = "∞" := by
  refine ⟨by decide, rfl, rfl, rfl, by decide, rfl⟩

/-- Witness for C2: the amended theorem applied to the concrete Greek
letters `"α"` (Nemeth lookup hit) and `"Ω"` (UEB pass-through). -/
theorem C2_greek_identifier_rendering_witness :
    ((tblGet NEMETH_GREEK (String.singleton 'α')).isSome = true ∧
      nemeth_render
          (.mk .IDENTIFIER (String.singleton 'α') [] [] pendingId []) =
        (tblGet NEMETH_GREEK (String.singleton 'α')).getD "") ∧
    ueb_render (.mk .IDENTIFIER (String.singleton 'Ω') [] [] pendingId [])
      = String.singleton 'Ω' :=
  ⟨C2_greek_identifier_rendering.1 'α' (by decide) (by decide),
   C2_greek_identifier_rendering.2.2.2.2.1 'Ω' (by decide)⟩

/-- Claim C6: Nemeth rendering of a Number node with content `"12"` is
exactly the numeric indicator followed by the cells for 1 and 2, the
three-cell string `"⠼⠂⠆"` (whatever the node's children, metadata, id or
accessibility data). -/
theorem C6_nemeth_number_12 :
    ∀ ch m i a, nemeth_render (.mk .NUMBER "12" ch m i a) = "⠼⠂⠆" :=
  fun _ _ _ _ => rfl

/-- Claim C5: speech rendering of the tree parsed from `\frac{a}{b}` at
the three verbosity levels. -/
theorem C5_fraction_speech :
    (parse_latex latexFracAB).map (speech_render .verbose) =
      .ok "start fraction a over b end fraction" ∧
    (parse_latex latexFracAB).map (speech_render .concise) =
      .ok "a over b" ∧
    (parse_latex latexFracAB).map (speech_render .superbrief) =
      .ok "frac a b" :=
  ⟨rfl, rfl, rfl⟩

theorem braceBal_nil : braceBal [] = 0 := rfl

theorem braceBal_cons (c : Char) (l : List Char) :
    braceBal (c :: l) = braceChg c + braceBal l := by
  simp [braceBal]

/-- If the depth, starting from `d > 0`, stays positive on every prefix of
the remaining input, the brace scan runs off the end and reports no
match. -/
theorem fmbGo_eq_none (u : List Char) :
    ∀ (d q : Nat), 0 < d →
      (∀ k, k ≤ u.length → 0 < (d : Int) + braceBal (u.take k)) →
      fmbGo u d q = none := by
  induction u with
  | nil =>
    intro d q hd _
    obtain ⟨d', rfl⟩ := Nat.exists_eq_succ_of_ne_zero (Nat.pos_iff_ne_zero.mp hd)
    rfl
  | cons c rest ih =>
    intro d q hd hbal
    obtain ⟨d', rfl⟩ := Nat.exists_eq_succ_of_ne_zero (Nat.pos_iff_ne_zero.mp hd)
    show fmbGo rest (if c = '{' then d' + 2 else if c = '}' then d' else d' + 1) (q + 1) = none
    have h1 := hbal 1 (by simp)
    simp [List.take_succ_cons, braceBal_cons, braceBal_nil] at h1
    have hnd : 0 < (if c = '{' then d' + 2 else if c = '}' then d' else d' + 1) := by
      by_cases hc1 : c = '{'
      · simp [hc1]
      · by_cases hc2 : c = '}'
        · simp [hc1, hc2, braceChg] at h1 ⊢
          omega
        · simp [hc1, hc2]
    refine ih _ (q + 1) hnd ?_
    intro k hk
    have h2 := hbal (k + 1) (by simpa using Nat.succ_le_succ hk)
    simp [List.take_succ_cons, braceBal_cons] at h2
    by_cases hc1 : c = '{'
    · simp [hc1, braceChg] at h2 ⊢
      omega
    · by_cases hc2 : c = '}'
      · simp [hc1, hc2, braceChg] at h1 h2 ⊢
        omega
      · simp [hc1, hc2, braceChg] at h2 ⊢
        omega

/-- Claim C8 (amended): `parse_latex("\frac{a}{b")` raises
`ParseError("Unclosed brace", 10, source)`; and in general the brace
matching scan, applied at an opening brace whose forward depth count
never returns to zero, raises `ParseError("Unclosed brace", position,
source)` with the position just past the scanned input.  (An input
containing such a brace may instead surface a ParseError raised earlier
by another rule — see the counterexample — so the "Unclosed brace"
message is not universal over inputs.) -/
theorem C8_unclosed_brace :
    parse_latex latexFracOpen =
      .error ⟨"Unclosed brace", some 10, some latexFracOpen⟩ ∧
    (∀ latex pos, pos < latex.length → getC latex pos = '{' →
      (∀ k, k ≤ (latex.drop (pos + 1)).length →
        0 < 1 + braceBal ((latex.drop (pos + 1)).take k)) →
      find_matching_brace latex pos =
        .error ⟨"Unclosed brace", some latex.length, some latex⟩) := by
  refine ⟨rfl, ?_⟩
  intro latex pos _ _ hbal
  unfold find_matching_brace
  rw [fmbGo_eq_none _ 1 (pos + 1) Nat.one_pos (by exact_mod_cast hbal)]

/-- Witness for C8: the brace-matching theorem applied to the one-brace
input `"{"`. -/
theorem C8_unclosed_brace_witness :
    find_matching_brace ['{'] 0 =
      .error ⟨"Unclosed brace", some 1, some ['{']⟩ :=
  C8_unclosed_brace.2 ['{'] 0 (by decide) rfl
    (fun k hk => by
      have hk0 : k = 0 := by simpa using hk
      subst hk0
      decide)

/-- Claim C8 (counterexample): the claim as stated says every input
containing an unmatched opening brace fails with
`ParseError("Unclosed brace", …)`.  The input `"^{a"` contains an
unmatched opening brace at position 1 (its forward depth count stays
positive), yet `parse_latex` raises
`ParseError("Superscript without base", 1, source)` instead. -/
theorem C8_counterexample_other_error_first :
    parse_latex latexCaretBrace =
      .error ⟨"Superscript without base", some 1, some latexCaretBrace⟩ ∧
    getC latexCaretBrace 1 = '{' ∧
    (∀ k, k ≤ (latexCaretBrace.drop 2).length →
      0 < 1 + braceBal ((latexCaretBrace.drop 2).take k)) := by
  refine ⟨rfl, rfl, ?_⟩
  intro k hk
  have hk1 : k ≤ 1 := by simpa using hk
  interval_cases k <;> decide

/-! ## Claim C7: superscript/subscript base handling -/

/-- Claim C7: when `^` or `_` is scanned while the parent has no children,
the parser raises `ParseError("Superscript/Subscript without base")`
naming the missing base (its position is the character after the mark);
when the parent has a preceding sibling, that sibling is removed from the
parent's children and becomes the first child of a new
Superscript/Subscript node whose second child is the Group produced by
parsing the payload. -/
theorem C7_script_base_handling :
    (∀ (f : Nat) latex pos t c m i a,
      parse_latex_super (f + 1) latex pos (.mk t c [] m i a) =
        .error ⟨"Superscript without base", some (pos + 1), some latex⟩) ∧
    (∀ (f : Nat) latex pos t c m i a,
      parse_latex_sub (f + 1) latex pos (.mk t c [] m i a) =
        .error ⟨"Subscript without base", some (pos + 1), some latex⟩) ∧
    (∀ (f : Nat) latex pos t c cs b m i a p' pos',
      parse_latex_super (f + 1) latex pos (.mk t c (cs ++ [b]) m i a) =
        .ok (p', pos') →
      ∃ payload g,
        parse_latex_tokens f payload 0
          (.mk .GROUP "" [] [("role", .s "exponent")] pendingId []) =
          .ok g ∧
        p' = .mk t c
          (cs ++ [.mk .SUPERSCRIPT "" [b, g] [] pendingId []]) m i a) ∧
    (∀ (f : Nat) latex pos t c cs b m i a p' pos',
      parse_latex_sub (f + 1) latex pos (.mk t c (cs ++ [b]) m i a) =
        .ok (p', pos') →
      ∃ payload g,
        parse_latex_tokens f payload 0
          (.mk .GROUP "" [] [("role", .s "subscript")] pendingId []) =
          .ok g ∧
        p' = .mk t c
          (cs ++ [.mk .SUBSCRIPT "" [b, g] [] pendingId []]) m i a) := by
  refine ⟨fun _ _ _ _ _ _ _ _ => rfl, fun _ _ _ _ _ _ _ _ => rfl, ?_, ?_⟩
  · intro f latex pos t c cs b m i a p' pos' h
    rw [parse_latex_super, parse_run] at h
    rw [List.getLast?_concat, List.dropLast_concat] at h
    simp only at h
    split at h
    · split at h
      · exact absurd h (by simp)
      · split at h
        · exact absurd h (by simp)
        · rename_i expNode _ heq
          rw [Except.ok.injEq, Prod.mk.injEq] at h
          exact ⟨_, expNode, by unfold parse_latex_tokens; rw [heq]; rfl,
                 h.1.symm⟩
    · split at h
      · exact absurd h (by simp)
      · rename_i expNode _ heq
        rw [Except.ok.injEq, Prod.mk.injEq] at h
        exact ⟨_, expNode, by unfold parse_latex_tokens; rw [heq]; rfl, h.1.symm⟩
  · intro f latex pos t c cs b m i a p' pos' h
    rw [parse_latex_sub, parse_run] at h
    rw [List.getLast?_concat, List.dropLast_concat] at h
    simp only at h
    split at h
    · split at h
      · exact absurd h (by simp)
      · split at h
        · exact absurd h (by simp)
        · rename_i subNode _ heq
          rw [Except.ok.injEq, Prod.mk.injEq] at h
          exact ⟨_, subNode, by unfold parse_latex_tokens; rw [heq]; rfl, h.1.symm⟩
    · split at h
      · exact absurd h (by simp)
      · rename_i subNode _ heq
        rw [Except.ok.injEq, Prod.mk.injEq] at h
        exact ⟨_, subNode, by unfold parse_latex_tokens; rw [heq]; rfl, h.1.symm⟩

/-- Witness for C7: the pop-and-rebuild statement applied to the concrete
scan state of `x^2` at the `^` (parent children `[x]`). -/
theorem C7_script_base_handling_witness :
    ∃ payload g,
      parse_latex_tokens 3 payload 0
        (.mk .GROUP "" [] [("role", .s "exponent")] pendingId []) =
        .ok g ∧
      SemanticNode.mk .ROOT "" [supNodeX2] [] pendingId [] =
        .mk .ROOT ""
          ([] ++ [.mk .SUPERSCRIPT "" [identX, g] [] pendingId []])
          [] pendingId [] :=
  C7_script_base_handling.2.2.1 3 ['x', '^', '2'] 1 .ROOT "" [] identX
    [] pendingId [] (.mk .ROOT "" [supNodeX2] [] pendingId []) 3 rfl

theorem ofPyName_pyName (t : NodeType) :
    NodeType.ofPyName t.pyName = some t := by
  cases t <;> rfl

/-- Claim C3: for every semantic tree `T`,
`from_dict (to_dict T) = some T` — the reconstruction agrees with `T` in
node type, content, children structure and metadata at every position,
and restores `node_id` and accessibility metadata verbatim. -/
theorem C3_serialization_round_trip (T : SemanticNode) :
    from_dict (to_dict T) = some T := by
  induction T using SemanticNode.ind with
  | h t c ch m i a ihch =>
    have hlist : ∀ l, (∀ x ∈ l, from_dict (to_dict x) = some x) →
        from_dict_list (to_dict_list l) = some l := by
      intro l
      induction l with
      | nil => intro _; rfl
      | cons y ys ihl =>
        intro hall
        rw [to_dict_list, from_dict_list, hall y (by simp),
            ihl (fun x hx => hall x (by simp [hx]))]
    rw [to_dict, from_dict, ofPyName_pyName, hlist ch ihch]
    rfl

theorem nestedChars_length (n : Nat) :
    (nestedChars n).length = 2 * n + 1 := by
  simp [nestedChars]
  omega

theorem nestedChars_succ (n : Nat) :
    nestedChars (n + 1) = '{' :: (nestedChars n ++ ['}']) := by
  unfold nestedChars
  rw [List.replicate_succ]
  conv_lhs => rw [List.replicate_succ']
  simp

theorem fmbGo_nested_skip (n : Nat) :
    ∀ (rest : List Char) (d p : Nat),
      fmbGo (nestedChars n ++ rest) (d + 1) p =
        fmbGo rest (d + 1) (p + (2 * n + 1)) := by
  induction n with
  | zero =>
    intro rest d p
    show fmbGo ('a' :: rest) (d + 1) p = _
    rw [fmbGo]
    simp
  | succ k ih =>
    intro rest d p
    rw [nestedChars_succ]
    show fmbGo ('{' :: (nestedChars k ++ ['}'] ++ rest)) (d + 1) p = _
    rw [fmbGo]
    simp only [List.append_assoc, List.singleton_append, Char.reduceEq,
               reduceIte, if_true]
    show fmbGo (nestedChars k ++ '}' :: rest) (d + 1 + 1) (p + 1) = _
    rw [ih ('}' :: rest) (d + 1) (p + 1)]
    rw [fmbGo]
    simp only [reduceIte, Char.reduceEq]
    congr 1
    omega

theorem fmbGo_nested_one (n : Nat) :
    fmbGo (nestedChars n ++ ['}']) 1 1 = some (2 * n + 2) := by
  have h := fmbGo_nested_skip n ['}'] 0 1
  norm_num at h
  rw [h]
  show fmbGo ['}'] (0 + 1) (1 + (2 * n + 1)) = _
  rw [fmbGo]
  simp only [reduceIte, Char.reduceEq]
  rw [fmbGo]
  congr 1
  omega

theorem fmb_nested (n : Nat) :
    find_matching_brace (nestedChars (n + 1)) 0 = .ok (2 * n + 2) := by
  unfold find_matching_brace
  rw [nestedChars_succ]
  norm_num
  rw [fmbGo_nested_one n]

theorem strip_nested (n : Nat) :
    pyStrip (stripDollars (pyStrip (nestedChars n))) = nestedChars n := by
  cases n with
  | zero => rfl
  | succ k =>
    have hrev : (nestedChars (k + 1)).reverse =
        '}' :: ((nestedChars k).reverse ++ ['{']) := by
      rw [nestedChars_succ]
      simp
    have hfront : ∀ (p : Char → Bool), p '{' = false →
        (nestedChars (k + 1)).dropWhile p = nestedChars (k + 1) := by
      intro p hp
      rw [nestedChars_succ]
      simp [List.dropWhile_cons, hp]
    have hback : ∀ (p : Char → Bool), p '}' = false →
        (nestedChars (k + 1)).reverse.dropWhile p =
          (nestedChars (k + 1)).reverse := by
      intro p hp
      rw [hrev]
      simp [List.dropWhile_cons, hp]
    have hstrip : pyStrip (nestedChars (k + 1)) = nestedChars (k + 1) := by
      unfold pyStrip
      rw [hfront pyIsSpace (by decide), hback pyIsSpace (by decide),
          List.reverse_reverse]
    have hdollar : stripDollars (nestedChars (k + 1)) =
        nestedChars (k + 1) := by
      unfold stripDollars
      rw [hfront (fun c => c = '$') (by decide),
          hback (fun c => c = '$') (by decide), List.reverse_reverse]
    rw [hstrip, hdollar, hstrip]

theorem getC_nested_zero (n : Nat) :
    getC (nestedChars (n + 1)) 0 = '{' := by
  rw [nestedChars_succ]
  rfl

theorem pySlice_nested (n : Nat) :
    pySlice (nestedChars (n + 1)) 1 (2 * n + 2) = nestedChars n := by
  unfold pySlice
  rw [nestedChars_succ]
  show (nestedChars n ++ ['}']).take (2 * n + 2 - 1) = nestedChars n
  rw [show 2 * n + 2 - 1 = (nestedChars n).length by
        rw [nestedChars_length]; omega]
  exact List.take_left _ _

theorem parse_tokens_nested (n : Nat) :
    ∀ (fuel : Nat) t c ch m i a, n + 2 ≤ fuel →
      parse_run fuel (.tokens (nestedChars n) 0 (.mk t c ch m i a)) =
        .ok (.mk t c (ch ++ [nestedGroup n]) m i a,
             (nestedChars n).length) := by
  induction n with
  | zero =>
    intro fuel t c ch m i a hfuel
    obtain ⟨k, rfl⟩ : ∃ k, fuel = k + 2 := ⟨fuel - 2, by omega⟩
    rfl
  | succ nn ih =>
    intro fuel t c ch m i a hfuel
    obtain ⟨k, rfl⟩ : ∃ k, fuel = k + 1 := ⟨fuel - 1, by omega⟩
    rw [parse_run]
    simp only [getC_nested_zero, nestedChars_length]
    norm_num
    rw [fmb_nested nn]
    simp only [show 2 * nn + 2 + 1 = 2 * (nn + 1) + 1 by omega]
    rw [show pySlice (nestedChars (nn + 1)) (0 + 1) (2 * nn + 2) =
          nestedChars nn from pySlice_nested nn]
    rw [ih k NodeType.GROUP "" [] [] pendingId [] (by omega)]
    show parse_run k (.tokens (nestedChars (nn + 1)) (2 * nn + 2 + 1)
          (add_child (.mk t c ch m i a)
            (.mk .GROUP "" ([] ++ [nestedGroup nn]) [] pendingId []))) = _
    obtain ⟨k2, rfl⟩ : ∃ k2, k = k2 + 1 := ⟨k - 1, by omega⟩
    rw [parse_run]
    simp only [nestedChars_length]
    rw [if_pos (by omega)]
    simp only [add_child, List.nil_append, nestedGroup,
               nestedChars_length]
    congr 2

theorem navigable_nestedGroup (n : Nat) :
    navigable_of_list [nestedGroup n] = [identA] := by
  induction n with
  | zero => rfl
  | succ k ih =>
    show navigable_of_list [.mk .GROUP "" [nestedGroup k] [] pendingId []]
      = [identA]
    rw [navigable_of_list]
    simp only [SemanticNode.nodeType, navigable_of_list]
    rw [if_pos (by simp [SemanticNode.nodeType])]
    show get_navigable_children
        (.mk .GROUP "" [nestedGroup k] [] pendingId []) ++ [] = [identA]
    rw [get_navigable_children, List.append_nil]
    exact ih

/-- Claim C9: for every `n ≥ 1`, parsing `{…{a}…}` (`n` braces) yields a
root whose `get_navigable_children` is exactly the single Identifier
`a`, independently of `n`. -/
theorem C9_nested_group_flattening (n : Nat) (hn : 1 ≤ n) :
    parse_latex (nestedChars n) =
      .ok (.mk .ROOT "" [nestedGroup n]
        [("source", .s (String.mk (nestedChars n)))] pendingId []) ∧
    get_navigable_children
        (.mk .ROOT "" [nestedGroup n]
          [("source", .s (String.mk (nestedChars n)))] pendingId []) =
      [identA] := by
  constructor
  · show (parse_run
        (((pyStrip (stripDollars (pyStrip (nestedChars n)))).length + 2) *
          ((pyStrip (stripDollars (pyStrip (nestedChars n)))).length + 2))
        (.tokens (pyStrip (stripDollars (pyStrip (nestedChars n)))) 0
          (.mk .ROOT "" []
            [("source", .s (String.mk
              (pyStrip (stripDollars (pyStrip (nestedChars n))))))]
            pendingId []))).map (fun r => r.1) = _
    rw [strip_nested n]
    rw [parse_tokens_nested n
        (((nestedChars n).length + 2) * ((nestedChars n).length + 2))
        .ROOT "" [] [("source", .s (String.mk (nestedChars n)))]
        pendingId [] (by rw [nestedChars_length]; nlinarith)]
    rfl
  · rw [get_navigable_children]
    exact navigable_nestedGroup n

/-- Witness for C9: the flattening theorem at depth 3 (`{{{a}}}`). -/
theorem C9_nested_group_flattening_witness :
    parse_latex (nestedChars 3) =
      .ok (.mk .ROOT "" [nestedGroup 3]
        [("source", .s (String.mk (nestedChars 3)))] pendingId []) ∧
    get_navigable_children
        (.mk .ROOT "" [nestedGroup 3]
          [("source", .s (String.mk (nestedChars 3)))] pendingId []) =
      [identA] :=
  C9_nested_group_flattening 3 (by decide)

/-- Claim C10: an `mfrac`/`msup`/`msub` element with fewer than two child
elements does not raise: it contributes a Fraction/Superscript/Subscript
node with zero children (a single child element is silently dropped),
attached to the surrounding tree. -/
theorem C10_mathml_underfull_scripts :
    (∀ tag text (ch : List XElem) parent,
      local_tag tag = "mfrac" → ch.length < 2 →
      parse_mathml_element (.mk tag text ch) parent =
        add_child parent (.mk .FRACTION "" [] [] pendingId [])) ∧
    (∀ tag text (ch : List XElem) parent,
      local_tag tag = "msup" → ch.length < 2 →
      parse_mathml_element (.mk tag text ch) parent =
        add_child parent (.mk .SUPERSCRIPT "" [] [] pendingId [])) ∧
    (∀ tag text (ch : List XElem) parent,
      local_tag tag = "msub" → ch.length < 2 →
      parse_mathml_element (.mk tag text ch) parent =
        add_child parent (.mk .SUBSCRIPT "" [] [] pendingId [])) := by
  refine ⟨?_, ?_, ?_⟩ <;>
    (intro tag text ch parent htag hlen
     cases ch with
     | nil => simp [parse_mathml_element, htag]
     | cons c0 tl =>
       cases tl with
       | nil => simp [parse_mathml_element, htag]
       | cons c1 tl2 =>
         simp only [List.length_cons] at hlen
         omega)

/-- Witness for C10: an `mfrac` with a single `mi` child yields a
childless Fraction node appended to the parent. -/
theorem C10_mathml_underfull_scripts_witness :
    parse_mathml_element (.mk "mfrac" none [.mk "mi" (some "x") []])
        (.mk .ROOT "" [] [] pendingId []) =
      add_child (.mk .ROOT "" [] [] pendingId [])
        (.mk .FRACTION "" [] [] pendingId []) :=
  C10_mathml_underfull_scripts.1 "mfrac" none [.mk "mi" (some "x") []]
    (.mk .ROOT "" [] [] pendingId []) rfl (by decide)

theorem erase_ids_assign_ids (t : SemanticNode) :
    ∀ u k, erase_ids ((assign_ids u k t).1) = erase_ids t := by
  induction t using SemanticNode.ind with
  | h ty c ch m i a ih =>
    have hlist : ∀ l, (∀ x ∈ l, ∀ (u : Nat → String) k,
        erase_ids ((assign_ids u k x).1) = erase_ids x) →
        ∀ (u : Nat → String) k,
          erase_ids_list ((assign_ids_list u k l).1) = erase_ids_list l := by
      intro l
      induction l with
      | nil => intro _ u k; rfl
      | cons y ys ihl =>
        intro hall u k
        show erase_ids ((assign_ids u k y).1) ::
            erase_ids_list ((assign_ids_list u (assign_ids u k y).2 ys).1) =
          erase_ids y :: erase_ids_list ys
        rw [hall y (by simp),
            ihl (fun x hx => hall x (by simp [hx])) u (assign_ids u k y).2]
    intro u k
    show SemanticNode.mk ty c
        (erase_ids_list ((assign_ids_list u (k + 1) ch).1)) m "" a =
      .mk ty c (erase_ids_list ch) m "" a
    rw [hlist ch ih u (k + 1)]

theorem speech_render_eq_compose (v : SpeechStyle) (ty : NodeType)
    (c : String) (ch : List SemanticNode) (m : List (String × MetaVal))
    (i : String) (a : List (String × String)) :
    speech_render v (.mk ty c ch m i a) =
      speech_compose v ty c (speech_render_list v ch) := by
  cases ty <;>
    (cases ch with
     | nil => rfl
     | cons x tl =>
       cases tl with
       | nil => rfl
       | cons y tl2 => rfl)

theorem nemeth_render_eq_compose (ty : NodeType) (c : String)
    (ch : List SemanticNode) (m : List (String × MetaVal)) (i : String)
    (a : List (String × String)) :
    nemeth_render (.mk ty c ch m i a) =
      nemeth_compose ty c (nemeth_render_list ch) := by
  cases ty <;>
    (cases ch with
     | nil => rfl
     | cons x tl =>
       cases tl with
       | nil => rfl
       | cons y tl2 => rfl)

theorem ueb_render_eq_compose (ty : NodeType) (c : String)
    (ch : List SemanticNode) (m : List (String × MetaVal)) (i : String)
    (a : List (String × String)) :
    ueb_render (.mk ty c ch m i a) =
      ueb_compose ty c (ueb_render_list ch) := by
  cases ty <;>
    (cases ch with
     | nil => rfl
     | cons x tl =>
       cases tl with
       | nil => rfl
       | cons y tl2 => rfl)

theorem speech_render_erase_ids (v : SpeechStyle) (t : SemanticNode) :
    speech_render v (erase_ids t) = speech_render v t := by
  induction t using SemanticNode.ind with
  | h ty c ch m i a ih =>
    have hlist : ∀ l, (∀ x ∈ l, speech_render v (erase_ids x) =
        speech_render v x) →
        speech_render_list v (erase_ids_list l) =
          speech_render_list v l := by
      intro l
      induction l with
      | nil => intro _; rfl
      | cons y ys ihl =>
        intro hall
        show speech_render v (erase_ids y) ::
            speech_render_list v (erase_ids_list ys) =
          speech_render_list v (y :: ys)
        rw [hall y (by simp), ihl (fun x hx => hall x (by simp [hx]))]
        rfl
    show speech_render v (.mk ty c (erase_ids_list ch) m "" a) = _
    rw [speech_render_eq_compose, speech_render_eq_compose,
        hlist ch ih]

theorem nemeth_render_erase_ids (t : SemanticNode) :
    nemeth_render (erase_ids t) = nemeth_render t := by
  induction t using SemanticNode.ind with
  | h ty c ch m i a ih =>
    have hlist : ∀ l, (∀ x ∈ l, nemeth_render (erase_ids x) =
        nemeth_render x) →
        nemeth_render_list (erase_ids_list l) = nemeth_render_list l := by
      intro l
      induction l with
      | nil => intro _; rfl
      | cons y ys ihl =>
        intro hall
        show nemeth_render (erase_ids y) ::
            nemeth_render_list (erase_ids_list ys) =
          nemeth_render_list (y :: ys)
        rw [hall y (by simp), ihl (fun x hx => hall x (by simp [hx]))]
        rfl
    show nemeth_render (.mk ty c (erase_ids_list ch) m "" a) = _
    rw [nemeth_render_eq_compose, nemeth_render_eq_compose, hlist ch ih]

theorem ueb_render_erase_ids (t : SemanticNode) :
    ueb_render (erase_ids t) = ueb_render t := by
  induction t using SemanticNode.ind with
  | h ty c ch m i a ih =>
    have hlist : ∀ l, (∀ x ∈ l, ueb_render (erase_ids x) =
        ueb_render x) →
        ueb_render_list (erase_ids_list l) = ueb_render_list l := by
      intro l
      induction l with
      | nil => intro _; rfl
      | cons y ys ihl =>
        intro hall
        show ueb_render (erase_ids y) ::
            ueb_render_list (erase_ids_list ys) =
          ueb_render_list (y :: ys)
        rw [hall y (by simp), ihl (fun x hx => hall x (by simp [hx]))]
        rfl
    show ueb_render (.mk ty c (erase_ids_list ch) m "" a) = _
    rw [ueb_render_eq_compose, ueb_render_eq_compose, hlist ch ih]

theorem speech_render_assign_ids (v : SpeechStyle) (t : SemanticNode)
    (u : Nat → String) (k : Nat) :
    speech_render v ((assign_ids u k t).1) = speech_render v t := by
  rw [← speech_render_erase_ids v ((assign_ids u k t).1),
      erase_ids_assign_ids t u k, speech_render_erase_ids]

theorem nemeth_render_assign_ids (t : SemanticNode)
    (u : Nat → String) (k : Nat) :
    nemeth_render ((assign_ids u k t).1) = nemeth_render t := by
  rw [← nemeth_render_erase_ids ((assign_ids u k t).1),
      erase_ids_assign_ids t u k, nemeth_render_erase_ids]

theorem ueb_render_assign_ids (t : SemanticNode)
    (u : Nat → String) (k : Nat) :
    ueb_render ((assign_ids u k t).1) = ueb_render t := by
  rw [← ueb_render_erase_ids ((assign_ids u k t).1),
      erase_ids_assign_ids t u k, ueb_render_erase_ids]

/-- Claim C4: for every input and configuration, two runs of the full
pipeline (which differ only in the uuid node ids they draw) produce
byte-identical speech, Nemeth and UEB output.  Stated for the LaTeX path
over all input strings, and for the MathML path over all decoded element
trees (the XML text decode is the deterministic external `xml.etree`). -/
theorem C4_pipeline_determinism (u₁ u₂ : Nat → String) (cfg : Config) :
    (∀ input : List Char,
      render_pipeline u₁ cfg input = render_pipeline u₂ cfg input) ∧
    (∀ e : XElem,
      render_pipeline_mathml u₁ cfg e = render_pipeline_mathml u₂ cfg e) := by
  constructor
  · intro input
    unfold render_pipeline
    cases parse_latex input with
    | error e => rfl
    | ok t =>
      simp only [Except.map, speech_render_assign_ids,
                 nemeth_render_assign_ids, ueb_render_assign_ids]
  · intro e
    unfold render_pipeline_mathml
    simp only [speech_render_assign_ids, nemeth_render_assign_ids,
               ueb_render_assign_ids]
